import Mathlib

/-!
# Authentication and authorization middleware of the sales service

A shallow embedding of

* `app/api/mid/authen.go` (`AuthHandler`, `processJWT`, `processBasic`,
  `parseBasicAuth`),
* `business/api/mid/authorize.go` (`Authorize`, `AuthorizeUser`,
  `AuthorizeProduct`, `AuthorizeHome`),
* `business/web/v1/mid/authorize.go` (`AuthorizeAdminOnly`, `AuthorizeUser`),

together with the library functions they call (`strings.Split`, `strings.Cut`,
`uuid.Parse`, `UUID.String`, `base64.StdEncoding`).

Go strings are byte sequences: they are lists of bytes here.  The collaborators
that live outside these files (token verifier, credential verifier, rule
engine, `QueryByID`, `next`, `mail.ParseAddress`, the clock) are arguments of
the embedded functions, and every call made to one of them is recorded in the
list of calls that each embedded function returns next to its result.
-/

set_option autoImplicit false
set_option linter.dupNamespace false

deriving instance DecidableEq for Except

/-- A Go `byte`. -/
abbrev Byte := Fin 256

/-- A Go `string`: a sequence of bytes. -/
abbrev Str := List Byte

/-- The bytes of a literal (used for ASCII literals of the source only). -/
def ascii (s : String) : Str := s.toList.map (fun c => Fin.ofNat c.toNat)

namespace strings

/-- Go `strings.Split(s, sep)` for a separator `sep` of one byte: the pieces of
`s` between consecutive occurrences of `sep`; `n` occurrences give `n + 1`
pieces, and the empty string gives one empty piece. -/
def Split : Str → Byte → List Str
  | [], _ => [[]]
  | c :: rest, sep =>
    if c = sep then [] :: Split rest sep
    else
      match Split rest sep with
      | [] => [[c]]
      | p :: ps => (c :: p) :: ps

/-- Go `strings.Cut(s, sep)` for a separator `sep` of one byte: the text before
and after the first occurrence of `sep`, and whether `sep` occurs; without an
occurrence the result is `(s, "", false)`. -/
def Cut : Str → Byte → Str × Str × Bool
  | [], _ => ([], [], false)
  | c :: rest, sep =>
    if c = sep then ([], rest, true)
    else
      match Cut rest sep with
      | (before, after, found) => (c :: before, after, found)

/-- ASCII lower-casing of one byte. -/
def lowerByte (c : Byte) : Byte :=
  if 65 ≤ c.val ∧ c.val ≤ 90 then Fin.ofNat (c.val + 32) else c

/-- Go `strings.EqualFold(s, t)` where `t` is an ASCII literal without the
letters `k` and `s`: equality up to ASCII letter case. -/
def EqualFold (s t : Str) : Bool := s.map lowerByte == t.map lowerByte

/-- The ASCII white space of Go `unicode.IsSpace`: tab, line feed, vertical
tab, form feed, carriage return, space. -/
def isSpace (c : Byte) : Bool :=
  c.val = 9 ∨ c.val = 10 ∨ c.val = 11 ∨ c.val = 12 ∨ c.val = 13 ∨ c.val = 32

/-- The white-space-separated parts of a string, as Go `strings.Fields` gives
them on ASCII input: the maximal runs of bytes that are not white space. -/
def Fields : Str → List Str
  | [] => []
  | c :: rest =>
    if isSpace c then Fields rest
    else
      match rest with
      | [] => [[c]]
      | d :: _ =>
        if isSpace d then [c] :: Fields rest
        else
          match Fields rest with
          | [] => [[c]]
          | p :: ps => (c :: p) :: ps

end strings

/-! ## `github.com/google/uuid` -/

/-- A Go `uuid.UUID`, the array type `[16]byte`. -/
structure UUID where
  bytes : List Byte
  size : bytes.length = 16
deriving DecidableEq

namespace uuid

/-- The zero value `uuid.UUID{}`. -/
def Nil : UUID := ⟨List.replicate 16 0, by decide⟩

/-- The errors of `uuid.Parse`. -/
inductive ParseError where
  | invalidLength (n : Nat)
  | invalidFormat
  | invalidUrnPrefix (p : Str)
deriving DecidableEq

/-- The table `xvalues`: the value of a hexadecimal digit in either case, and
255 for every other byte. -/
def xvalues (c : Byte) : Nat :=
  if 48 ≤ c.val ∧ c.val ≤ 57 then c.val - 48
  else if 65 ≤ c.val ∧ c.val ≤ 70 then c.val - 55
  else if 97 ≤ c.val ∧ c.val ≤ 102 then c.val - 87
  else 255

/-- The function `xtob`: the byte written by two hexadecimal digits. -/
def xtob (x1 x2 : Byte) : Option Byte :=
  let b1 := xvalues x1
  let b2 := xvalues x2
  if b1 ≠ 255 ∧ b2 ≠ 255 then some (Fin.ofNat ((b1 * 16 + b2) % 256)) else none

/-- The bytes written by consecutive pairs of hexadecimal digits. -/
def hexPairs : Str → Option (List Byte)
  | x1 :: x2 :: rest =>
    match xtob x1 x2 with
    | none => none
    | some b =>
      match hexPairs rest with
      | none => none
      | some bs => some (b :: bs)
  | _ => some []

/-- Builds a UUID from decoded bytes (always 16 of them in `Parse`). -/
def ofBytes (bs : List Byte) : Except ParseError UUID :=
  if h : bs.length = 16 then .ok ⟨bs, h⟩ else .error .invalidFormat

/-- The tail of `uuid.Parse`: `s` holds at least 36 bytes and must start with
`xxxxxxxx-xxxx-xxxx-xxxx-xxxxxxxxxxxx`; bytes after the 36th are not looked
at. -/
def parseHyphenated (s : Str) : Except ParseError UUID :=
  if s.getD 8 0 ≠ 45 ∨ s.getD 13 0 ≠ 45 ∨ s.getD 18 0 ≠ 45 ∨ s.getD 23 0 ≠ 45 then
    .error .invalidFormat
  else
    match hexPairs (s.take 8 ++ (s.drop 9).take 4 ++ (s.drop 14).take 4
        ++ (s.drop 19).take 4 ++ (s.drop 24).take 12) with
    | none => .error .invalidFormat
    | some bs => ofBytes bs

/-- Go `uuid.Parse`: the switch on `len(s)` accepts the plain form (36 bytes),
the `urn:uuid:` form (45), the braced form (38, the first byte is dropped
unchecked) and the form without hyphens (32). -/
def Parse (s : Str) : Except ParseError UUID :=
  if s.length = 36 then parseHyphenated s
  else if s.length = 45 then
    if strings.EqualFold (s.take 9) (ascii "urn:uuid:") then parseHyphenated (s.drop 9)
    else .error (.invalidUrnPrefix (s.take 9))
  else if s.length = 38 then parseHyphenated (s.drop 1)
  else if s.length = 32 then
    match hexPairs s with
    | none => .error .invalidFormat
    | some bs => ofBytes bs
  else .error (.invalidLength s.length)

/-- The lower-case hexadecimal digit of a value below 16 (`hex.Encode`). -/
def hexDigit (n : Nat) : Byte :=
  if n < 10 then Fin.ofNat (48 + n) else Fin.ofNat (87 + n)

/-- Go `hex.Encode`: two lower-case digits per byte. -/
def hexEncode : List Byte → Str
  | [] => []
  | b :: bs => hexDigit (b.val / 16) :: hexDigit (b.val % 16) :: hexEncode bs

/-- Go `UUID.String`: the form `xxxxxxxx-xxxx-xxxx-xxxx-xxxxxxxxxxxx` in lower
case (`encodeHex`). -/
def String (u : UUID) : Str :=
  hexEncode (u.bytes.take 4) ++ [45] ++ hexEncode ((u.bytes.drop 4).take 2) ++ [45]
    ++ hexEncode ((u.bytes.drop 6).take 2) ++ [45] ++ hexEncode ((u.bytes.drop 8).take 2)
    ++ [45] ++ hexEncode (u.bytes.drop 10)

end uuid

/-! ## `encoding/base64`, `StdEncoding` -/

namespace base64

/-- The alphabet of `StdEncoding`: `A`-`Z`, `a`-`z`, `0`-`9`, `+`, `/`. -/
def encodeStd (n : Nat) : Byte :=
  if n < 26 then Fin.ofNat (65 + n)
  else if n < 52 then Fin.ofNat (71 + n)
  else if n < 62 then Fin.ofNat (n - 4)
  else if n = 62 then 43
  else 47

/-- The table `decodeMap` of `StdEncoding`: the value of an alphabet byte, and
255 for every other byte. -/
def decodeMap (c : Byte) : Nat :=
  if 65 ≤ c.val ∧ c.val ≤ 90 then c.val - 65
  else if 97 ≤ c.val ∧ c.val ≤ 122 then c.val - 71
  else if 48 ≤ c.val ∧ c.val ≤ 57 then c.val + 4
  else if c.val = 43 then 62
  else if c.val = 47 then 63
  else 255

/-- Go `StdEncoding.EncodeToString`: four alphabet bytes per three input
bytes, the last group padded with `=`. -/
def EncodeToString : List Byte → Str
  | [] => []
  | [a] => [encodeStd (a.val / 4), encodeStd (a.val % 4 * 16), 61, 61]
  | [a, b] =>
    [encodeStd (a.val / 4), encodeStd (a.val % 4 * 16 + b.val / 16),
      encodeStd (b.val % 16 * 4), 61]
  | a :: b :: c :: rest =>
    encodeStd (a.val / 4) :: encodeStd (a.val % 4 * 16 + b.val / 16)
      :: encodeStd (b.val % 16 * 4 + c.val / 64) :: encodeStd (c.val % 64)
      :: EncodeToString rest

/-- The loops of `decodeQuantum` that skip `\n` and `\r`. -/
def skipNewlines : Str → Str
  | [] => []
  | c :: rest => if c.val = 10 ∨ c.val = 13 then skipNewlines rest else c :: rest

/-- The end of `decodeQuantum`: the 24-bit value of four 6-bit digits (the
fields do not overlap, so the source's bitwise or is a sum), cut into three
bytes. -/
def quantum (d0 d1 d2 d3 : Nat) : List Byte :=
  let val := d0 * 262144 + d1 * 4096 + d2 * 64 + d3
  [Fin.ofNat (val / 65536 % 256), Fin.ofNat (val / 256 % 256), Fin.ofNat (val % 256)]

/-- Go `Encoding.Decode` for `StdEncoding` (padded, not strict), as the
repeated `decodeQuantum`: `dbuf` holds the digits of the current group and
`out` the bytes decoded so far; `none` is a `CorruptInputError`.  Line breaks
are skipped, a group is four digits, the last group may end in `==` or `=`,
and nothing but line breaks may follow the padding. -/
def decodeLoop : Str → List Nat → List Byte → Option (List Byte)
  | [], dbuf, out => if dbuf = [] then some out else none
  | c :: rest, dbuf, out =>
    if decodeMap c ≠ 255 then
      match dbuf with
      | [d0, d1, d2] => decodeLoop rest [] (out ++ quantum d0 d1 d2 (decodeMap c))
      | _ => decodeLoop rest (dbuf ++ [decodeMap c]) out
    else if c.val = 10 ∨ c.val = 13 then decodeLoop rest dbuf out
    else if c.val ≠ 61 then none
    else
      match dbuf with
      | [d0, d1] =>
        match skipNewlines rest with
        | [] => none
        | p :: rest2 =>
          if p.val = 61 ∧ skipNewlines rest2 = [] then some (out ++ (quantum d0 d1 0 0).take 1)
          else none
      | [d0, d1, d2] =>
        if skipNewlines rest = [] then some (out ++ (quantum d0 d1 d2 0).take 2) else none
      | _ => none

/-- Go `StdEncoding.DecodeString`, the error reduced to its presence. -/
def DecodeString (s : Str) : Option (List Byte) := decodeLoop s [] []

end base64

/-! ## Errors, claims and records shared by the middleware -/

/-- The rules of package `auth`: `RuleAny`, `RuleAdminOnly`, `RuleUserOnly`,
`RuleAdminOrSubject`. -/
inductive Rule where
  | RuleAny | RuleAdminOnly | RuleUserOnly | RuleAdminOrSubject
deriving DecidableEq

/-- The text of a Go `error`, by the way the error was built. -/
inductive ErrText where
  /-- a literal message of the source -/
  | lit (s : String)
  /-- the text of an error returned by a collaborator -/
  | ofCollaborator (s : Str)
  /-- the text of an error of `uuid.Parse` -/
  | ofUUID (e : uuid.ParseError)
  /-- a literal followed by the text of another error (`%w`, `%s`) -/
  | prefixed (p : String) (t : ErrText)
  /-- the format `authorize: you are not authorized for that action,
  claims[%v] rule[%v]: %s` with the roles, the rule and the error of the rule
  engine -/
  | notAuthorized (roles : List Str) (rule : Rule) (err : ErrText)
  /-- the format `querybyid: xID[%s]: %s` with the name of the id, the id and
  the error of `QueryByID` -/
  | queryByID (what : String) (id : UUID) (err : ErrText)
deriving DecidableEq

/-- The error codes of `encore.dev/beta/errs` (`eerrs.ErrCode`). -/
inductive ErrCode where
  | OK | Canceled | Unknown | InvalidArgument | DeadlineExceeded | NotFound
  | AlreadyExists | PermissionDenied | ResourceExhausted | FailedPrecondition
  | Aborted | OutOfRange | Unimplemented | Internal | Unavailable | DataLoss
  | Unauthenticated
deriving DecidableEq

/-- Go `ErrCode.String` on `Unauthenticated`. -/
def ErrCode.unauthenticatedString : String := "unauthenticated"

/-- Modelled from the spec: the error value of package `app/api/errs`, which is
not among the sources; it pairs an error code with a message. -/
structure Error where
  Code : ErrCode
  Message : ErrText
deriving DecidableEq

namespace errs

/-- Modelled from the spec: `errs.New(code, err)` of `app/api/errs`, an error
with the given code and the text of `err`. -/
def New (code : ErrCode) (err : ErrText) : Error := ⟨code, err⟩

/-- Modelled from the spec: `errs.Newf(code, format)` of `app/api/errs`, an
error with the given code and the formatted message. -/
def Newf (code : ErrCode) (msg : ErrText) : Error := ⟨code, msg⟩

end errs

/-- The type `auth.Claims`: the registered claims of `jwt.RegisteredClaims`
and the roles.  Times are nanoseconds since the zero time. -/
structure Claims where
  Issuer : Str
  Subject : Str
  Audience : List Str
  ExpiresAt : Option Nat
  NotBefore : Option Nat
  IssuedAt : Option Nat
  ID : Str
  Roles : List Str
deriving DecidableEq

/-- Go `mail.Address`. -/
structure Address where
  Name : Str
  Address : Str
deriving DecidableEq

/-- The user record of `userbus` / `user` (the fields the middleware reads, and
some payload). -/
structure User where
  ID : UUID
  Name : Str
  Roles : List Str
  Enabled : Bool
deriving DecidableEq

/-! ## `app/api/mid/authen.go` -/

namespace appmid

/-- A call made to a collaborator. -/
inductive Call where
  /-- the token verifier `a.Authenticate(ctx, token)` -/
  | Authenticate (token : Str)
  /-- the credential verifier `userBus.Authenticate(ctx, addr, pass)` -/
  | userAuthenticate (addr : Address) (pass : Str)
deriving DecidableEq

/-- The collaborators of `AuthHandler`. -/
structure Deps where
  /-- the token verifier `a.Authenticate` -/
  Authenticate : Str → Except Str Claims
  /-- Go `mail.ParseAddress` -/
  ParseAddress : Str → Except Str Address
  /-- the credential verifier `userBus.Authenticate` -/
  userAuthenticate : Address → Str → Except Str User
  /-- the variable `jwt.TimePrecision`, in nanoseconds (one second by default) -/
  TimePrecision : Nat
  /-- the first reading of `time.Now()` in `processBasic` (for `ExpiresAt`) -/
  nowFirst : Nat
  /-- the second reading of `time.Now()` in `processBasic` (for `IssuedAt`) -/
  nowSecond : Nat

/-- The three results `(eauth.UID, *auth.Claims, error)`, with the calls made
to the collaborators, in order. -/
structure Result where
  calls : List Call
  uid : Str
  claims : Option Claims
  err : Option Error
deriving DecidableEq

/-- The request parameter `AuthParams`. -/
structure AuthParams where
  Authorization : Str

/-- Go `time.Hour`, in nanoseconds. -/
def Hour : Nat := 3600 * 1000000000

/-- Go `Time.Truncate(d)`: `t` rounded down to a multiple of `d` since the zero
time, and `t` itself when `d` is not positive. -/
def Truncate (t d : Nat) : Nat := if d = 0 then t else t - t % d

/-- Go `jwt.NewNumericDate(t)`: `t` truncated to `jwt.TimePrecision`. -/
def NewNumericDate (prec t : Nat) : Option Nat := some (Truncate t prec)

/-- Embedding of `processJWT`. -/
def processJWT (d : Deps) (token : Str) : Result :=
  match d.Authenticate token with
  | .error err =>
    ⟨[.Authenticate token], [], none, some (errs.New .Unauthenticated (.ofCollaborator err))⟩
  | .ok claims =>
    if claims.Subject = [] then
      ⟨[.Authenticate token], [], none,
        some (errs.Newf .Unauthenticated
          (.lit "authorize: you are not authorized for that action, no claims"))⟩
    else
      match uuid.Parse claims.Subject with
      | .error err =>
        ⟨[.Authenticate token], [], none,
          some (errs.New .Unauthenticated (.prefixed "parsing subject: " (.ofUUID err)))⟩
      | .ok subjectID => ⟨[.Authenticate token], uuid.String subjectID, some claims, none⟩

/-- Embedding of `parseBasicAuth`. -/
def parseBasicAuth (auth : Str) : Str × Str × Bool :=
  match strings.Split auth 32 with
  | [p0, p1] =>
    if p0 ≠ ascii "Basic" then ([], [], false)
    else
      match base64.DecodeString p1 with
      | none => ([], [], false)
      | some c =>
        match strings.Cut c 58 with
        | (_, _, false) => ([], [], false)
        | (username, password, true) => (username, password, true)
  | _ => ([], [], false)

/-- Embedding of `processBasic`. -/
def processBasic (d : Deps) (basic : Str) : Result :=
  match parseBasicAuth basic with
  | (_, _, false) =>
    ⟨[], [], none, some (errs.Newf .Unauthenticated (.lit "invalid Basic auth"))⟩
  | (email, pass, true) =>
    match d.ParseAddress email with
    | .error err => ⟨[], [], none, some (errs.New .Unauthenticated (.ofCollaborator err))⟩
    | .ok addr =>
      match d.userAuthenticate addr pass with
      | .error err =>
        ⟨[.userAuthenticate addr pass], [], none,
          some (errs.New .Unauthenticated (.ofCollaborator err))⟩
      | .ok usr =>
        let claims : Claims :=
          { Subject := uuid.String usr.ID
            Issuer := ascii "service project"
            ExpiresAt := NewNumericDate d.TimePrecision (d.nowFirst + Hour)
            IssuedAt := NewNumericDate d.TimePrecision d.nowSecond
            Audience := []
            NotBefore := none
            ID := []
            Roles := usr.Roles }
        match uuid.Parse claims.Subject with
        | .error err =>
          ⟨[.userAuthenticate addr pass], [], none,
            some (errs.Newf .Unauthenticated (.prefixed "parsing subject: " (.ofUUID err)))⟩
        | .ok subjectID =>
          ⟨[.userAuthenticate addr pass], uuid.String subjectID, some claims, none⟩

/-- The Claims that `processBasic` builds for an accepted user. -/
def basicClaims (d : Deps) (usr : User) : Claims :=
  { Subject := uuid.String usr.ID
    Issuer := ascii "service project"
    ExpiresAt := NewNumericDate d.TimePrecision (d.nowFirst + Hour)
    IssuedAt := NewNumericDate d.TimePrecision d.nowSecond
    Audience := []
    NotBefore := none
    ID := []
    Roles := usr.Roles }

/-- Embedding of `AuthHandler`. -/
def AuthHandler (d : Deps) (ap : AuthParams) : Result :=
  match strings.Split ap.Authorization 32 with
  | [p0, _] =>
    if p0 = ascii "Bearer" then processJWT d ap.Authorization
    else if p0 = ascii "Basic" then processBasic d ap.Authorization
    else
      ⟨[], [], none,
        some (errs.Newf .Unauthenticated (.lit ErrCode.unauthenticatedString))⟩
  | _ => ⟨[], [], none, some (errs.Newf .Unauthenticated (.lit "invalid authorization value"))⟩

/-- The shape of a failure of `AuthHandler`: an `Unauthenticated` error, an
empty UID, nil Claims; and when the credential verifier was called, the message
is the text of the verifier's error. -/
def FailureShape (d : Deps) (r : Result) : Prop :=
  (∃ e, r.err = some e ∧ e.Code = .Unauthenticated) ∧ r.uid = [] ∧ r.claims = none
  ∧ ∀ addr pass, Call.userAuthenticate addr pass ∈ r.calls →
      ∃ t, d.userAuthenticate addr pass = .error t
        ∧ r.err = some ⟨.Unauthenticated, .ofCollaborator t⟩

end appmid

/-! ## Requests, responses and the request context -/

/-- The product record of package `product` (the fields the middleware reads,
and some payload). -/
structure Product where
  ID : UUID
  UserID : UUID
  Name : Str
deriving DecidableEq

/-- The home record of package `home` (the fields the middleware reads, and
some payload). -/
structure Home where
  ID : UUID
  UserID : UUID
  Kind : Str
deriving DecidableEq

/-- A value stored in a `context.Context` (Go `any`). -/
inductive CtxValue where
  | uuid (id : UUID)
  | user (usr : User)
  | product (prd : Product)
  | home (hme : Home)
deriving DecidableEq

/-- A context key: a value of a named integer type.  Go compares keys by type
and value. -/
structure CtxKey where
  type : String
  value : Nat
deriving DecidableEq

/-- A `context.Context`, as the values stored in it, the latest first. -/
abbrev Context := List (CtxKey × CtxValue)

/-- Go `context.WithValue`. -/
def Context.WithValue (ctx : Context) (key : CtxKey) (val : CtxValue) : Context :=
  (key, val) :: ctx

/-- Go `ctx.Value(key)`: the latest value stored under `key`. -/
def Context.Value : Context → CtxKey → Option CtxValue
  | [], _ => none
  | (k, v) :: rest, key => if k = key then some v else Context.Value rest key

/-- A path parameter of `req.Data().PathParams`. -/
structure PathParam where
  Name : Str
  Value : Str
deriving DecidableEq

/-- A `middleware.Request`: the tags of the endpoint (`req.Data().API.Tags`),
the path parameters and the context. -/
structure Request where
  Tags : List Str
  PathParams : List PathParam
  ctx : Context
deriving DecidableEq

/-- Go `req.WithContext`. -/
def Request.WithContext (req : Request) (ctx : Context) : Request := { req with ctx := ctx }

/-- A `middleware.Response`. -/
structure Response where
  HTTPStatus : Nat
  Err : Option ErrText
  Payload : Option Str
deriving DecidableEq

/-- The error of a `QueryByID`: whether `errors.Is(err, ErrNotFound)` holds,
and its text. -/
structure QueryError where
  notFound : Bool
  text : Str
deriving DecidableEq

/-- The rule engine `a.Authorize(ctx, claims, userID, rule)`: `none` is the
nil error. -/
structure Auth where
  Authorize : Claims → UUID → Rule → Option Str

/-- The variable `ErrInvalidID`. -/
def ErrInvalidID : ErrText := .lit "ID is not in its proper form"

/-- The constants `http.StatusNoContent`, `http.StatusBadRequest`,
`http.StatusUnauthorized`, `http.StatusInternalServerError`. -/
def StatusNoContent : Nat := 204
def StatusBadRequest : Nat := 400
def StatusUnauthorized : Nat := 401
def StatusInternalServerError : Nat := 500

/-- A call made by a middleware to a collaborator. -/
inductive MidCall where
  /-- the call `QueryByID(ctx, id)` of a resource core -/
  | QueryByID (id : UUID)
  /-- the rule engine `a.Authorize(ctx, claims, userID, rule)` -/
  | Authorize (claims : Claims) (userID : UUID) (rule : Rule)
  /-- the next handler `next(req)` -/
  | next (req : Request)
deriving DecidableEq

/-- The response of a middleware, with the calls made to the collaborators, in
order. -/
structure MidResult where
  calls : List MidCall
  resp : Response
deriving DecidableEq

/-- The requests handed to `next`, in order. -/
def MidCall.nextReqs (calls : List MidCall) : List Request :=
  calls.filterMap fun c =>
    match c with
    | .next req => some req
    | _ => none

/-- The resource-owner identities handed to the rule engine, in order. -/
def MidCall.owners (calls : List MidCall) : List UUID :=
  calls.filterMap fun c =>
    match c with
    | .Authorize _ userID _ => some userID
    | _ => none

/-- The identifiers on which `QueryByID` was called, in order. -/
def MidCall.queried (calls : List MidCall) : List UUID :=
  calls.filterMap fun c =>
    match c with
    | .QueryByID id => some id
    | _ => none

/-- The rules handed to the rule engine, in order. -/
def MidCall.rules (calls : List MidCall) : List Rule :=
  calls.filterMap fun c =>
    match c with
    | .Authorize _ _ rule => some rule
    | _ => none

/-- The resource resolution of a middleware succeeded: either the request does
not have exactly one path parameter and nothing is resolved (`res = none`), or
its only path parameter parses as the UUID `id` and `QueryByID id` returns the
record `x` (`res = some (id, x)`). -/
def Resolved {α : Type} (QueryByID : UUID → Except QueryError α) (req : Request)
    (res : Option (UUID × α)) : Prop :=
  (req.PathParams.length ≠ 1 ∧ res = none)
  ∨ ∃ p id x, req.PathParams = [p] ∧ uuid.Parse p.Value = .ok id ∧ QueryByID id = .ok x
      ∧ res = some (id, x)

/-- The identifier parsed from the path, or the zero UUID when nothing was
resolved. -/
def resolvedID {α : Type} (res : Option (UUID × α)) : UUID :=
  match res with
  | none => uuid.Nil
  | some (id, _) => id

/-- The owner read from the resolved record, or the zero UUID when nothing was
resolved. -/
def resolvedOwner {α : Type} (owner : α → UUID) (res : Option (UUID × α)) : UUID :=
  match res with
  | none => uuid.Nil
  | some (_, x) => owner x

/-- The request with the resolved record attached, or the request itself when
nothing was resolved. -/
def attach {α : Type} (set : Request → α → Request) (req : Request)
    (res : Option (UUID × α)) : Request :=
  match res with
  | none => req
  | some (_, x) => set req x

/-- The call to `QueryByID` of a successful resolution. -/
def queryCalls {α : Type} (res : Option (UUID × α)) : List MidCall :=
  match res with
  | none => []
  | some (id, _) => [.QueryByID id]

/-- The way a middleware ends on the verdict of the rule engine: `next` is
called if and only if the verdict is no error; then it is called once, on
`req`, and its response is the response; otherwise the response carries
`http.StatusUnauthorized`. -/
def EndsBy (r : MidResult) (verdict : Option Str) (req : Request)
    (next : Request → Response) : Prop :=
  (MidCall.nextReqs r.calls ≠ [] ↔ verdict = none)
  ∧ (verdict = none → MidCall.nextReqs r.calls = [req] ∧ r.resp = next req)
  ∧ (verdict ≠ none → MidCall.nextReqs r.calls = [] ∧ r.resp.HTTPStatus = StatusUnauthorized)

/-! ## `business/api/mid/authorize.go` -/

namespace bizmid

/-- Modelled from the spec: `errs.NewResponse(status, err)` of
`business/api/errs`, which is not among the sources; the response maps a
failure to the given HTTP status and carries the error. -/
def NewResponse (status : Nat) (err : ErrText) : Response := ⟨status, some err, none⟩

/-- Modelled from the spec: `errs.NewResponsef(status, format, args)` of
`business/api/errs`, as `NewResponse` with the formatted message. -/
def NewResponsef (status : Nat) (msg : ErrText) : Response := ⟨status, some msg, none⟩

/-- The context keys of the package (their declaration is not among the
sources; the keys are as in `business/web/v1/mid`, one per resource). -/
def userKey : CtxKey := ⟨"ctxKey", 2⟩
def productKey : CtxKey := ⟨"ctxKey", 3⟩
def homeKey : CtxKey := ⟨"ctxKey", 4⟩

/-- Modelled from the spec: `setUser` of `business/api/mid`, which is not among
the sources; it attaches the resolved user to the request scope. -/
def setUser (req : Request) (usr : User) : Request :=
  req.WithContext (req.ctx.WithValue userKey (.user usr))

/-- Modelled from the spec: `setProduct` of `business/api/mid`, which is not
among the sources; it attaches the resolved product to the request scope. -/
def setProduct (req : Request) (prd : Product) : Request :=
  req.WithContext (req.ctx.WithValue productKey (.product prd))

/-- Modelled from the spec: `setHome` of `business/api/mid`, which is not among
the sources; it attaches the resolved home to the request scope. -/
def setHome (req : Request) (hme : Home) : Request :=
  req.WithContext (req.ctx.WithValue homeKey (.home hme))

/-- The loop of `Authorize` over the tags: every `as_any_role` or
`as_user_role` tag overwrites the rule. -/
def ruleOfTags (tags : List Str) : Rule :=
  tags.foldl
    (fun rule tag =>
      if tag = ascii "as_any_role" then .RuleAny
      else if tag = ascii "as_user_role" then .RuleUserOnly
      else rule)
    .RuleAdminOnly

/-- The loop of `AuthorizeUser` over the tags: it stops at the first
`as_admin_role` tag. -/
def userRuleOfTags : List Str → Rule
  | [] => .RuleAdminOrSubject
  | tag :: rest => if tag = ascii "as_admin_role" then .RuleAdminOnly else userRuleOfTags rest

/-- The end of every middleware of the package: the rule engine decides, a
denial is answered with `http.StatusUnauthorized`, otherwise `next(req)` is
the response.  `calls` are the calls made before. -/
def authorizeAndForward (a : Auth) (claims : Claims) (calls : List MidCall) (userID : UUID) (rule : Rule)
    (req : Request) (next : Request → Response) : MidResult :=
  match a.Authorize claims userID rule with
  | some err =>
    ⟨calls ++ [.Authorize claims userID rule],
      NewResponsef StatusUnauthorized (.notAuthorized claims.Roles rule (.ofCollaborator err))⟩
  | none => ⟨calls ++ [.Authorize claims userID rule, .next req], next req⟩

/-- Embedding of `Authorize`; `claims` is the value of `eauth.Data()`. -/
def Authorize (a : Auth) (claims : Claims) (req : Request) (next : Request → Response) :
    MidResult :=
  authorizeAndForward a claims [] uuid.Nil (ruleOfTags req.Tags) req next

/-- Embedding of `AuthorizeUser`; `claims` is the value of `eauth.Data()`. -/
def AuthorizeUser (a : Auth) (QueryByID : UUID → Except QueryError User) (claims : Claims)
    (req : Request) (next : Request → Response) : MidResult :=
  let rule := userRuleOfTags req.Tags
  match req.PathParams with
  | [id] =>
    match uuid.Parse id.Value with
    | .error _ => ⟨[], NewResponse StatusUnauthorized ErrInvalidID⟩
    | .ok userID =>
      match QueryByID userID with
      | .error err =>
        if err.notFound then
          ⟨[.QueryByID userID], NewResponse StatusUnauthorized (.ofCollaborator err.text)⟩
        else
          ⟨[.QueryByID userID],
            NewResponsef StatusUnauthorized
              (.queryByID "userID" userID (.ofCollaborator err.text))⟩
      | .ok usr => authorizeAndForward a claims [.QueryByID userID] userID rule (setUser req usr) next
  | _ => authorizeAndForward a claims [] uuid.Nil rule req next

/-- Embedding of `AuthorizeProduct`; `claims` is the value of `eauth.Data()`. -/
def AuthorizeProduct (a : Auth) (QueryByID : UUID → Except QueryError Product)
    (claims : Claims) (req : Request) (next : Request → Response) : MidResult :=
  match req.PathParams with
  | [id] =>
    match uuid.Parse id.Value with
    | .error _ => ⟨[], NewResponse StatusUnauthorized ErrInvalidID⟩
    | .ok productID =>
      match QueryByID productID with
      | .error err =>
        if err.notFound then
          ⟨[.QueryByID productID], NewResponse StatusUnauthorized (.ofCollaborator err.text)⟩
        else
          ⟨[.QueryByID productID],
            NewResponsef StatusInternalServerError
              (.queryByID "productID" productID (.ofCollaborator err.text))⟩
      | .ok prd =>
        authorizeAndForward a claims [.QueryByID productID] prd.UserID .RuleAdminOrSubject
          (setProduct req prd) next
  | _ => authorizeAndForward a claims [] uuid.Nil .RuleAdminOrSubject req next

/-- Embedding of `AuthorizeHome`; `claims` is the value of `eauth.Data()`. -/
def AuthorizeHome (a : Auth) (QueryByID : UUID → Except QueryError Home) (claims : Claims)
    (req : Request) (next : Request → Response) : MidResult :=
  match req.PathParams with
  | [id] =>
    match uuid.Parse id.Value with
    | .error _ => ⟨[], NewResponse StatusUnauthorized ErrInvalidID⟩
    | .ok homeID =>
      match QueryByID homeID with
      | .error err =>
        if err.notFound then
          ⟨[.QueryByID homeID], NewResponse StatusUnauthorized (.ofCollaborator err.text)⟩
        else
          ⟨[.QueryByID homeID],
            NewResponsef StatusUnauthorized
              (.queryByID "homeID" homeID (.ofCollaborator err.text))⟩
      | .ok hme =>
        authorizeAndForward a claims [.QueryByID homeID] hme.UserID .RuleAdminOrSubject
          (setHome req hme) next
  | _ => authorizeAndForward a claims [] uuid.Nil .RuleAdminOrSubject req next

end bizmid

/-! ## `business/web/v1/mid/authorize.go` -/

namespace v1mid

/-- The constants `userIDKey` and `userKey` of type `ctxUserKey`
(`iota + 1`). -/
def userIDKey : CtxKey := ⟨"ctxUserKey", 1⟩
def userKey : CtxKey := ⟨"ctxUserKey", 2⟩

/-- Embedding of `setUserID`. -/
def setUserID (req : Request) (userID : UUID) : Request :=
  req.WithContext (req.ctx.WithValue userIDKey (.uuid userID))

/-- Embedding of `GetUserID`: the value and the error. -/
def GetUserID (ctx : Context) : UUID × Option ErrText :=
  match ctx.Value userIDKey with
  | some (.uuid v) => (v, none)
  | _ => (uuid.Nil, some (.lit "user id not found"))

/-- Embedding of `setUser`. -/
def setUser (req : Request) (usr : User) : Request :=
  req.WithContext (req.ctx.WithValue userKey (.user usr))

/-- The zero value `user.User{}`. -/
def zeroUser : User := ⟨uuid.Nil, [], [], false⟩

/-- Embedding of `GetUser`: the value and the error. -/
def GetUser (ctx : Context) : User × Option ErrText :=
  match ctx.Value userKey with
  | some (.user v) => (v, none)
  | _ => (zeroUser, some (.lit "user not found"))

/-- Modelled from the spec: `v1.NewErrorResponse(status, err)` of
`business/web/v1`, which is not among the sources; the response maps a failure
to the given HTTP status and carries the error. -/
def NewErrorResponse (status : Nat) (err : ErrText) : Response := ⟨status, some err, none⟩

/-- Modelled from the spec: `auth.NewAuthError(format, args)` of
`business/web/v1/auth`, which is not among the sources; an error with the
formatted message. -/
def NewAuthError (msg : ErrText) : ErrText := msg

/-- Embedding of `AuthorizeAdminOnly`; `claims` is the value of
`encauth.Data()`. -/
def AuthorizeAdminOnly (a : Auth) (claims : Claims) (req : Request)
    (next : Request → Response) : MidResult :=
  match a.Authorize claims uuid.Nil .RuleAdminOnly with
  | some err =>
    ⟨[.Authorize claims uuid.Nil .RuleAdminOnly],
      NewErrorResponse StatusBadRequest
        (NewAuthError (.notAuthorized claims.Roles .RuleAdminOnly (.ofCollaborator err)))⟩
  | none => ⟨[.Authorize claims uuid.Nil .RuleAdminOnly, .next req], next req⟩

/-- The end of `AuthorizeUser`, after the `if` block: `userID` is the variable
declared at the top of the function. -/
def authorizeAndForward (a : Auth) (claims : Claims) (calls : List MidCall) (userID : UUID)
    (req : Request) (next : Request → Response) : MidResult :=
  match a.Authorize claims userID .RuleAdminOrSubject with
  | some err =>
    ⟨calls ++ [.Authorize claims userID .RuleAdminOrSubject],
      NewErrorResponse StatusBadRequest
        (NewAuthError (.notAuthorized claims.Roles .RuleAdminOrSubject (.ofCollaborator err)))⟩
  | none => ⟨calls ++ [.Authorize claims userID .RuleAdminOrSubject, .next req], next req⟩

/-- Embedding of `AuthorizeUser`; `claims` is the value of `encauth.Data()`.
The statement `userID, err := uuid.Parse(id.Value)` inside the `if` block
declares a new variable `userID` (here `parsedID`); the `userID` declared at
the top of the function keeps its zero value and is the one passed to
`a.Authorize`. -/
def AuthorizeUser (a : Auth) (QueryByID : UUID → Except QueryError User) (claims : Claims)
    (req : Request) (next : Request → Response) : MidResult :=
  let userID : UUID := uuid.Nil
  match req.PathParams with
  | [id] =>
    match uuid.Parse id.Value with
    | .error _ => ⟨[], NewErrorResponse StatusBadRequest ErrInvalidID⟩
    | .ok parsedID =>
      match QueryByID parsedID with
      | .error err =>
        if err.notFound then
          ⟨[.QueryByID parsedID], NewErrorResponse StatusNoContent (.ofCollaborator err.text)⟩
        else
          ⟨[.QueryByID parsedID],
            NewErrorResponse StatusInternalServerError
              (.queryByID "userID" parsedID (.ofCollaborator err.text))⟩
      | .ok usr =>
        authorizeAndForward a claims [.QueryByID parsedID] userID (setUser req usr) next
  | _ => authorizeAndForward a claims [] userID req next

end v1mid

/-! ## The rule engine of the specification -/

namespace spec

/-- The role names `ADMIN` and `USER`. -/
def ADMIN : Str := ascii "ADMIN"
def USER : Str := ascii "USER"

/-- Modelled from the spec: the rule engine `Decide(claims, rule,
resourceOwnerID)` of section 4.4, which is not among the sources.  `AdminOnly`
allows iff `ADMIN` is among the roles, `UserOnly` iff `USER` is, `Any` iff there
is a role, `AdminOrSubject` iff `ADMIN` is among the roles or the subject is the
resource owner. -/
def Decide (claims : Claims) (rule : Rule) (resourceOwnerID : UUID) : Bool :=
  match rule with
  | .RuleAdminOnly => ADMIN ∈ claims.Roles
  | .RuleUserOnly => USER ∈ claims.Roles
  | .RuleAny => claims.Roles ≠ []
  | .RuleAdminOrSubject =>
    ADMIN ∈ claims.Roles ∨ uuid.Parse claims.Subject = .ok resourceOwnerID

/-- Modelled from the spec: the rule engine as the collaborator `a.Authorize`,
an error standing for `allowed = false`. -/
def auth : Auth :=
  ⟨fun claims userID rule =>
    if Decide claims rule userID then none else some (ascii "rule denied")⟩

end spec

/-! ## Concrete data -/

namespace sample

def U1 : UUID := ⟨List.replicate 16 170, by decide⟩
def U2 : UUID := ⟨List.replicate 16 187, by decide⟩

/-- A caller holding only the `USER` role, with subject `U1`. -/
def userClaims : Claims :=
  { Issuer := ascii "service project"
    Subject := ascii "aaaaaaaa-aaaa-aaaa-aaaa-aaaaaaaaaaaa"
    Audience := []
    ExpiresAt := some 63900003600000000000
    NotBefore := none
    IssuedAt := some 63900000000000000000
    ID := []
    Roles := [spec.USER] }

/-- The same caller, the subject written in upper case. -/
def upperClaims : Claims :=
  { userClaims with Subject := ascii "AAAAAAAA-AAAA-AAAA-AAAA-AAAAAAAAAAAA" }

def user1 : User := ⟨U1, ascii "Bill", [spec.USER], true⟩
def user2 : User := ⟨U2, ascii "Jack", [spec.ADMIN], true⟩

/-- Collaborators of `AuthHandler`: a token verifier that knows two tokens, an
address parser that knows one address, a credential verifier that knows one
user, the default precision of one second, and two clock readings one
nanosecond apart, on either side of a full second. -/
def deps : appmid.Deps :=
  { Authenticate := fun token =>
      if token = ascii "Bearer good" then .ok userClaims
      else if token = ascii "Bearer upper" then .ok upperClaims
      else .error (ascii "token is malformed")
    ParseAddress := fun email =>
      if email = ascii "user@example.com" then .ok ⟨[], email⟩
      else .error (ascii "mail: missing '@' or angle-addr")
    userAuthenticate := fun addr pass =>
      if addr.Address = ascii "user@example.com" ∧ pass = ascii "correct:pass" then .ok user1
      else .error (ascii "invalid credentials")
    TimePrecision := 1000000000
    nowFirst := 63900000000999999999
    nowSecond := 63900000001000000000 }

/-- The value `Basic ` followed by the base64 of `user@example.com:correct:pass`. -/
def basicGood : appmid.AuthParams :=
  ⟨ascii "Basic dXNlckBleGFtcGxlLmNvbTpjb3JyZWN0OnBhc3M="⟩

/-- The same collaborators with both clock readings equal. -/
def depsOneReading : appmid.Deps := { deps with nowSecond := deps.nowFirst }

/-- A store holding `user1` and `user2`. -/
def QueryByID (id : UUID) : Except QueryError User :=
  if id = U1 then .ok user1
  else if id = U2 then .ok user2
  else .error ⟨true, ascii "user not found"⟩

/-- A store in which every product belongs to `U2`. -/
def QueryProductByID (id : UUID) : Except QueryError Product := .ok ⟨id, U2, ascii "Comic"⟩

/-- A store in which every home belongs to `U1`. -/
def QueryHomeByID (id : UUID) : Except QueryError Home := .ok ⟨id, U1, ascii "CONDO"⟩

/-- A next handler answering 200. -/
def next (_ : Request) : Response := ⟨200, none, some (ascii "ok")⟩

/-- The request `PUT /v1/users/aaaaaaaa-aaaa-aaaa-aaaa-aaaaaaaaaaaa`. -/
def updateUser1 : Request :=
  { Tags := [ascii "metrics", ascii "authorize_user"]
    PathParams := [⟨ascii "userID", ascii "aaaaaaaa-aaaa-aaaa-aaaa-aaaaaaaaaaaa"⟩]
    ctx := [] }

/-- The request `GET /v1/users`, without a path parameter. -/
def listUsers : Request :=
  { Tags := [ascii "metrics", ascii "authorize", ascii "as_admin_role"]
    PathParams := []
    ctx := [] }

/-- The request `PUT /v1/users/bbbbbbbb-bbbb-bbbb-bbbb-bbbbbbbbbbbb`. -/
def updateUser2 : Request :=
  { updateUser1 with
    PathParams := [⟨ascii "userID", ascii "bbbbbbbb-bbbb-bbbb-bbbb-bbbbbbbbbbbb"⟩] }

end sample

/-! ## The tags declared in `apis/services/salesapiweb/routes.go` -/

namespace routes

def HomeCreate : List Str := [ascii "metrics", ascii "authorize", ascii "as_user_role"]
def HomeUpdate : List Str := [ascii "metrics", ascii "authorize_home"]
def HomeDelete : List Str := [ascii "metrics", ascii "authorize_home"]
def HomeQuery : List Str := [ascii "metrics", ascii "authorize", ascii "as_any_role"]
def HomeQueryByID : List Str := [ascii "metrics", ascii "authorize_home"]
def ProductCreate : List Str := [ascii "metrics", ascii "authorize", ascii "as_user_role"]
def ProductUpdate : List Str := [ascii "metrics", ascii "authorize_product"]
def ProductDelete : List Str := [ascii "metrics", ascii "authorize_product"]
def ProductQuery : List Str := [ascii "metrics", ascii "authorize", ascii "as_any_role"]
def ProductQueryByID : List Str := [ascii "metrics", ascii "authorize_product"]
def TranCreate : List Str := [ascii "metrics", ascii "authorize", ascii "as_user_role"]
def UserToken : List Str := [ascii "metrics"]
def UserCreate : List Str := [ascii "metrics", ascii "authorize", ascii "as_admin_role"]
def UserUpdate : List Str := [ascii "metrics", ascii "authorize_user"]
def UserUpdateRole : List Str :=
  [ascii "metrics", ascii "authorize_user", ascii "as_admin_role"]
def UserDelete : List Str := [ascii "metrics", ascii "authorize_user"]
def UserQuery : List Str := [ascii "metrics", ascii "authorize", ascii "as_admin_role"]
def UserQueryByID : List Str := [ascii "metrics", ascii "authorize_user"]
def VProductQuery : List Str := [ascii "metrics", ascii "authorize", ascii "as_admin_role"]

end routes

/-! ## The rule selection, in the words of the specification -/

namespace spec

/-- A tag that names a rule for `Authorize`. -/
def isRoleTag (tag : Str) : Bool := tag = ascii "as_any_role" ∨ tag = ascii "as_user_role"

/-- The rule of `Authorize` as the claim words it: `RuleAdminOnly` when no tag
is `as_any_role` or `as_user_role`, otherwise the rule of the last such tag. -/
def ruleOfLastRoleTag (tags : List Str) : Rule :=
  match (tags.filter isRoleTag).getLast? with
  | none => .RuleAdminOnly
  | some tag => if tag = ascii "as_any_role" then .RuleAny else .RuleUserOnly

/-- The rule of `AuthorizeUser` as the claim words it: `RuleAdminOnly` if the
tags contain `as_admin_role`, `RuleAdminOrSubject` otherwise. -/
def userRule (tags : List Str) : Rule :=
  if ascii "as_admin_role" ∈ tags then .RuleAdminOnly else .RuleAdminOrSubject

end spec

/-! ## More concrete data -/

namespace sample

/-- A store in which nothing is found. -/
def missing {α : Type} (_ : UUID) : Except QueryError α :=
  .error ⟨true, ascii "not found"⟩

/-- A store whose backend is down. -/
def down {α : Type} (_ : UUID) : Except QueryError α :=
  .error ⟨false, ascii "connection refused"⟩

/-- A request whose single path parameter is `not-a-uuid`. -/
def badID : Request :=
  { Tags := [ascii "metrics", ascii "authorize_user"]
    PathParams := [⟨ascii "userID", ascii "not-a-uuid"⟩]
    ctx := [] }

/-- The request `PUT /v1/role/aaaaaaaa-aaaa-aaaa-aaaa-aaaaaaaaaaaa`. -/
def updateRole1 : Request :=
  { Tags := routes.UserUpdateRole
    PathParams := [⟨ascii "userID", ascii "aaaaaaaa-aaaa-aaaa-aaaa-aaaaaaaaaaaa"⟩]
    ctx := [] }

/-- A caller with subject `U1` and the two roles `USER` and `GUEST`. -/
def guestClaims : Claims := { userClaims with Roles := [spec.USER, ascii "GUEST"] }

/-- A caller with subject `U2` and the role `ADMIN`. -/
def adminClaims : Claims :=
  { userClaims with
    Subject := ascii "bbbbbbbb-bbbb-bbbb-bbbb-bbbbbbbbbbbb"
    Roles := [spec.ADMIN] }

/-- A rule engine that denies everything, with a reason that names the rule. -/
def denyAll : Auth :=
  ⟨fun _ _ rule =>
    match rule with
    | .RuleAdminOnly => some (ascii "rule_admin_only failed")
    | _ => some (ascii "rule failed")⟩

/-- Collaborators of `AuthHandler` as `deps`, with a second address known to
the parser but not to the credential verifier, which answers every failure
with the same error. -/
def depsTwoAddresses : appmid.Deps :=
  { deps with
    ParseAddress := fun email =>
      if email = ascii "user@example.com" ∨ email = ascii "nobody@example.com" then
        .ok ⟨[], email⟩
      else .error (ascii "mail: missing '@' or angle-addr") }

/-- The value `Basic ` followed by the base64 of `user@example.com:wrongpass`. -/
def basicWrongPass : appmid.AuthParams :=
  ⟨ascii "Basic " ++ base64.EncodeToString (ascii "user@example.com:wrongpass")⟩

/-- The value `Basic ` followed by the base64 of `nobody@example.com:wrongpass`. -/
def basicNoUser : appmid.AuthParams :=
  ⟨ascii "Basic " ++ base64.EncodeToString (ascii "nobody@example.com:wrongpass")⟩

/-- Collaborators of `AuthHandler` that report each cause of failure with its
own text: a token verifier that knows a token with a bad signature, an expired
token, a token without subject and a token whose subject is not a UUID; an
address parser that knows two addresses; a credential verifier that reports an
unknown user and a wrong password differently. -/
def depsCauses : appmid.Deps :=
  { deps with
    Authenticate := fun token =>
      if token = ascii "Bearer good" then .ok userClaims
      else if token = ascii "Bearer goodA" then .error (ascii "crypto/rsa: verification error")
      else if token = ascii "Bearer expired" then .error (ascii "token is expired")
      else if token = ascii "Bearer nosub" then .ok { userClaims with Subject := [] }
      else if token = ascii "Bearer badsub" then
        .ok { userClaims with Subject := ascii "not-a-uuid" }
      else .error (ascii "token is malformed")
    ParseAddress := fun email =>
      if email = ascii "user@example.com" ∨ email = ascii "nobody@example.com" then
        .ok ⟨[], email⟩
      else .error (ascii "mail: missing '@' or angle-addr")
    userAuthenticate := fun addr pass =>
      if addr.Address = ascii "user@example.com" then
        if pass = ascii "correct:pass" then .ok user1
        else .error (ascii "comparehashandpassword: authentication failed")
      else .error (ascii "query: user not found") }

/-- The value `Basic ` followed by the base64 of `not-an-email:pw`. -/
def basicBadEmail : appmid.AuthParams :=
  ⟨ascii "Basic " ++ base64.EncodeToString (ascii "not-an-email:pw")⟩

end sample

/-! ## Lemmas on the library functions -/

namespace uuid

theorem xvalues_hexDigit (n : Nat) (h : n < 16) : xvalues (hexDigit n) = n := by
  interval_cases n <;> decide

theorem xtob_hexDigit (b : Byte) :
    xtob (hexDigit (b.val / 16)) (hexDigit (b.val % 16)) = some b := by
  have h1 : b.val / 16 < 16 := by omega
  have h2 : b.val % 16 < 16 := by omega
  simp only [xtob, xvalues_hexDigit _ h1, xvalues_hexDigit _ h2]
  have h3 : (b.val / 16 * 16 + b.val % 16) % 256 = b.val := by omega
  have h4 : b.val / 16 ≠ 255 ∧ b.val % 16 ≠ 255 := by omega
  rw [if_pos h4, h3]
  exact congrArg some (Fin.ext (Nat.mod_eq_of_lt b.isLt))

theorem bytes_eq_of_size (l : List Byte) (h : l.length = 16) :
    ∃ b0 b1 b2 b3 b4 b5 b6 b7 b8 b9 b10 b11 b12 b13 b14 b15, l = [b0, b1, b2, b3, b4, b5, b6, b7, b8, b9, b10, b11, b12, b13, b14, b15] := by
  rcases l with _ | ⟨b0, _ | ⟨b1, _ | ⟨b2, _ | ⟨b3, _ | ⟨b4, _ | ⟨b5, _ | ⟨b6, _ | ⟨b7, _ | ⟨b8, _ | ⟨b9, _ | ⟨b10, _ | ⟨b11, _ | ⟨b12, _ | ⟨b13, _ | ⟨b14, _ | ⟨b15, _ | ⟨c, l⟩⟩⟩⟩⟩⟩⟩⟩⟩⟩⟩⟩⟩⟩⟩⟩⟩
  all_goals first
    | exact ⟨_, _, _, _, _, _, _, _, _, _, _, _, _, _, _, _, rfl⟩
    | (simp at h)

/-- Parsing the canonical form of a UUID gives the UUID back. -/
theorem Parse_String (u : UUID) : Parse (String u) = .ok u := by
  obtain ⟨l, hl⟩ := u
  obtain ⟨b0, b1, b2, b3, b4, b5, b6, b7, b8, b9, b10, b11, b12, b13, b14, b15, rfl⟩ := bytes_eq_of_size l hl
  have hs : String ⟨[b0, b1, b2, b3, b4, b5, b6, b7, b8, b9, b10, b11, b12, b13, b14, b15], hl⟩
      = hexEncode [b0, b1, b2, b3] ++ 45 :: (hexEncode [b4, b5] ++ 45 :: (hexEncode [b6, b7]
        ++ 45 :: (hexEncode [b8, b9] ++ 45 :: hexEncode [b10, b11, b12, b13, b14, b15]))) := by
    simp [String]
  rw [hs]
  simp only [hexEncode, List.cons_append, List.nil_append]
  unfold Parse
  rw [if_pos (by rfl)]
  unfold parseHyphenated
  rw [if_neg (by simp [List.getD])]
  simp only [List.take, List.drop, List.cons_append, List.nil_append, hexPairs, xtob_hexDigit]
  simp [ofBytes]

end uuid

namespace strings

theorem Split_ne_nil (s : Str) (sep : Byte) : Split s sep ≠ [] := by
  induction s with
  | nil => simp [Split]
  | cons c rest ih =>
    unfold Split
    split
    · simp
    · split <;> simp

theorem Split_cons_ne (c : Byte) (rest : Str) (sep : Byte) (h : c ≠ sep) :
    Split (c :: rest) sep =
      match Split rest sep with
      | [] => [[c]]
      | p :: ps => (c :: p) :: ps := by
  rw [Split, if_neg h]

theorem Cut_cons_ne (c : Byte) (rest : Str) (sep : Byte) (h : c ≠ sep) :
    Cut (c :: rest) sep = ((c :: (Cut rest sep).1), (Cut rest sep).2.1, (Cut rest sep).2.2) := by
  rw [Cut, if_neg h]

theorem Split_of_not_mem (s : Str) (sep : Byte) (h : sep ∉ s) : Split s sep = [s] := by
  induction s with
  | nil => rfl
  | cons c rest ih =>
    simp only [List.mem_cons, not_or] at h
    rw [Split_cons_ne _ _ _ (fun hc => h.1 hc.symm), ih h.2]

theorem Split_append (a b : Str) (sep : Byte) (h : sep ∉ a) :
    Split (a ++ sep :: b) sep = a :: Split b sep := by
  induction a with
  | nil => simp [Split]
  | cons c rest ih =>
    simp only [List.mem_cons, not_or] at h
    simp only [List.cons_append]
    rw [Split_cons_ne _ _ _ (fun hc => h.1 hc.symm), ih h.2]

/-- The number of pieces is the number of separators plus one. -/
theorem Split_length (s : Str) (sep : Byte) : (Split s sep).length = s.count sep + 1 := by
  induction s with
  | nil => rfl
  | cons c rest ih =>
    by_cases hc : c = sep
    · subst hc
      rw [Split, if_pos rfl, List.length_cons, ih, List.count_cons_self]
    · rw [Split_cons_ne c rest sep hc, List.count_cons_of_ne (fun h => hc h.symm)]
      cases hs : Split rest sep with
      | nil => exact absurd hs (Split_ne_nil rest sep)
      | cons p ps =>
        rw [hs] at ih
        simpa using ih

theorem Cut_append (a b : Str) (sep : Byte) (h : sep ∉ a) :
    Cut (a ++ sep :: b) sep = (a, b, true) := by
  induction a with
  | nil => simp [Cut]
  | cons c rest ih =>
    simp only [List.mem_cons, not_or] at h
    simp only [List.cons_append]
    rw [Cut_cons_ne _ _ _ (fun hc => h.1 hc.symm), ih h.2]

theorem Cut_true (s : Str) (sep : Byte) (u p : Str) (h : Cut s sep = (u, p, true)) :
    s = u ++ sep :: p ∧ sep ∉ u := by
  induction s generalizing u with
  | nil => simp [Cut] at h
  | cons c rest ih =>
    unfold Cut at h
    split at h
    · rename_i hc
      simp only [Prod.mk.injEq, and_true] at h
      obtain ⟨rfl, rfl⟩ := h
      simp [hc]
    · rename_i hc
      rcases hcut : Cut rest sep with ⟨u1, p1, f1⟩
      rw [hcut] at h
      simp only [Prod.mk.injEq] at h
      obtain ⟨rfl, rfl, rfl⟩ := h
      obtain ⟨h1, h2⟩ := ih u1 hcut
      refine ⟨by rw [h1]; rfl, ?_⟩
      simp only [List.mem_cons, not_or]
      exact ⟨fun hh => hc hh.symm, h2⟩

/-- The text before and after the first separator, exactly. -/
theorem Cut_true_iff (s : Str) (sep : Byte) (u p : Str) :
    Cut s sep = (u, p, true) ↔ s = u ++ sep :: p ∧ sep ∉ u :=
  ⟨Cut_true s sep u p, fun h => by rw [h.1]; exact Cut_append u p sep h.2⟩

end strings

namespace base64

theorem decodeMap_encodeStd (n : Nat) (h : n < 64) : decodeMap (encodeStd n) = n := by
  interval_cases n <;> decide

theorem encodeStd_val (n : Nat) (h : n < 64) :
    (encodeStd n).val ≠ 32 ∧ (encodeStd n).val ≠ 10 ∧ (encodeStd n).val ≠ 13
      ∧ (encodeStd n).val ≠ 61 := by
  interval_cases n <;> decide

theorem encodeStd_ne_space (n : Nat) (h : n < 64) : encodeStd n ≠ 32 := by
  intro hc
  exact (encodeStd_val n h).1 (by rw [hc]; rfl)

theorem ofNat_val (b : Byte) : (Fin.ofNat b.val : Byte) = b :=
  Fin.ext (Nat.mod_eq_of_lt b.isLt)

theorem ofNat_eq (b : Byte) (n : Nat) (h : n = b.val) : (Fin.ofNat n : Byte) = b := by
  rw [h]; exact ofNat_val b

theorem quantum_three (a b c : Byte) :
    quantum (a.val / 4) (a.val % 4 * 16 + b.val / 16) (b.val % 16 * 4 + c.val / 64)
      (c.val % 64) = [a, b, c] := by
  have ha := a.isLt
  have hb := b.isLt
  have hc := c.isLt
  simp only [quantum]
  rw [ofNat_eq a _ (by omega), ofNat_eq b _ (by omega), ofNat_eq c _ (by omega)]

theorem quantum_two (a b : Byte) :
    (quantum (a.val / 4) (a.val % 4 * 16 + b.val / 16) (b.val % 16 * 4) 0).take 2
      = [a, b] := by
  have ha := a.isLt
  have hb := b.isLt
  simp only [quantum, List.take]
  rw [ofNat_eq a _ (by omega), ofNat_eq b _ (by omega)]

theorem quantum_one (a : Byte) :
    (quantum (a.val / 4) (a.val % 4 * 16) 0 0).take 1 = [a] := by
  have ha := a.isLt
  simp only [quantum, List.take]
  rw [ofNat_eq a _ (by omega)]

theorem decodeLoop_digit (n : Nat) (h : n < 64) (rest : Str) (dbuf : List Nat)
    (out : List Byte) :
    decodeLoop (encodeStd n :: rest) dbuf out =
      match dbuf with
      | [d0, d1, d2] => decodeLoop rest [] (out ++ quantum d0 d1 d2 n)
      | _ => decodeLoop rest (dbuf ++ [n]) out := by
  have hd := decodeMap_encodeStd n h
  conv_lhs => unfold decodeLoop
  rw [hd, if_pos (by omega)]

theorem decodeLoop_pad_two (d0 d1 : Nat) (out : List Byte) :
    decodeLoop [61, 61] [d0, d1] out = some (out ++ (quantum d0 d1 0 0).take 1) := rfl

theorem decodeLoop_pad_one (d0 d1 d2 : Nat) (out : List Byte) :
    decodeLoop [61] [d0, d1, d2] out = some (out ++ (quantum d0 d1 d2 0).take 2) := rfl

/-- Decoding what `EncodeToString` wrote gives the bytes back. -/
theorem decodeLoop_EncodeToString (x out : List Byte) :
    decodeLoop (EncodeToString x) [] out = some (out ++ x) := by
  induction x using EncodeToString.induct generalizing out with
  | case1 => simp [EncodeToString, decodeLoop]
  | case2 a =>
    have ha := a.isLt
    rw [EncodeToString, decodeLoop_digit _ (by omega), decodeLoop_digit _ (by omega)]
    simp only [List.nil_append, List.cons_append]
    rw [decodeLoop_pad_two, quantum_one]
  | case3 a b =>
    have ha := a.isLt
    have hb := b.isLt
    rw [EncodeToString, decodeLoop_digit _ (by omega), decodeLoop_digit _ (by omega),
      decodeLoop_digit _ (by omega)]
    simp only [List.nil_append, List.cons_append]
    rw [decodeLoop_pad_one, quantum_two]
  | case4 a b c rest ih =>
    have ha := a.isLt
    have hb := b.isLt
    have hc := c.isLt
    rw [EncodeToString, decodeLoop_digit _ (by omega), decodeLoop_digit _ (by omega),
      decodeLoop_digit _ (by omega), decodeLoop_digit _ (by omega)]
    simp only [List.nil_append, List.cons_append]
    rw [quantum_three, ih]
    simp

theorem DecodeString_EncodeToString (x : List Byte) :
    DecodeString (EncodeToString x) = some x := by
  simpa [DecodeString] using decodeLoop_EncodeToString x []

theorem space_not_mem_EncodeToString (x : List Byte) : (32 : Byte) ∉ EncodeToString x := by
  induction x using EncodeToString.induct with
  | case1 => simp [EncodeToString]
  | case2 a =>
    have ha := a.isLt
    simp only [EncodeToString, List.mem_cons, List.mem_singleton, not_or, List.not_mem_nil,
      not_false_eq_true, and_true]
    exact ⟨(encodeStd_ne_space _ (by omega)).symm, (encodeStd_ne_space _ (by omega)).symm,
      by decide, by decide⟩
  | case3 a b =>
    have ha := a.isLt
    have hb := b.isLt
    simp only [EncodeToString, List.mem_cons, List.mem_singleton, not_or, List.not_mem_nil,
      not_false_eq_true, and_true]
    exact ⟨(encodeStd_ne_space _ (by omega)).symm, (encodeStd_ne_space _ (by omega)).symm,
      (encodeStd_ne_space _ (by omega)).symm, by decide⟩
  | case4 a b c rest ih =>
    have ha := a.isLt
    have hb := b.isLt
    have hc := c.isLt
    simp only [EncodeToString, List.mem_cons, not_or]
    exact ⟨(encodeStd_ne_space _ (by omega)).symm, (encodeStd_ne_space _ (by omega)).symm,
      (encodeStd_ne_space _ (by omega)).symm, (encodeStd_ne_space _ (by omega)).symm, ih⟩

end base64

/-! ## `AuthHandler`: the Bearer form -/

namespace appmid

theorem AuthHandler_bearer (d : Deps) (ap : AuthParams) (tok : Str)
    (h : strings.Split ap.Authorization 32 = [ascii "Bearer", tok]) :
    AuthHandler d ap = processJWT d ap.Authorization := by
  unfold AuthHandler
  rw [h]
  simp

theorem AuthHandler_basic (d : Deps) (ap : AuthParams) (p1 : Str)
    (h : strings.Split ap.Authorization 32 = [ascii "Basic", p1]) :
    AuthHandler d ap = processBasic d ap.Authorization := by
  unfold AuthHandler
  rw [h]
  have hne : ascii "Basic" ≠ ascii "Bearer" := by decide
  simp [hne]

/-- C4.  For an Authorization value of two space-separated parts of which the
first is `Bearer`, `AuthHandler` succeeds exactly when the token verifier
(called on the whole value) succeeds with Claims whose Subject is not empty and
parses as a UUID; in every other case it returns an `Unauthenticated` error,
an empty UID and nil Claims. -/
theorem C4_bearer_success_iff (d : Deps) (ap : AuthParams) (tok : Str)
    (h : strings.Split ap.Authorization 32 = [ascii "Bearer", tok]) :
    ((AuthHandler d ap).err = none ↔
      ∃ claims u, d.Authenticate ap.Authorization = .ok claims ∧ claims.Subject ≠ []
        ∧ uuid.Parse claims.Subject = .ok u)
    ∧ ((¬ ∃ claims u, d.Authenticate ap.Authorization = .ok claims ∧ claims.Subject ≠ []
        ∧ uuid.Parse claims.Subject = .ok u) →
      (∃ e, (AuthHandler d ap).err = some e ∧ e.Code = .Unauthenticated)
        ∧ (AuthHandler d ap).uid = [] ∧ (AuthHandler d ap).claims = none) := by
  rw [AuthHandler_bearer d ap tok h]
  unfold processJWT
  cases hA : d.Authenticate ap.Authorization with
  | error e => simp [errs.New]
  | ok claims =>
    by_cases hs : claims.Subject = []
    · simp [hs, errs.Newf]
    · cases hp : uuid.Parse claims.Subject with
      | error e => simp [hs, hp, errs.New]
      | ok u => simp [hs, hp]

theorem C4_bearer_success_iff_witness :
    ((AuthHandler sample.deps ⟨ascii "Bearer good"⟩).err = none ↔
      ∃ claims u, sample.deps.Authenticate (ascii "Bearer good") = .ok claims
        ∧ claims.Subject ≠ [] ∧ uuid.Parse claims.Subject = .ok u)
    ∧ ((¬ ∃ claims u, sample.deps.Authenticate (ascii "Bearer good") = .ok claims
        ∧ claims.Subject ≠ [] ∧ uuid.Parse claims.Subject = .ok u) →
      (∃ e, (AuthHandler sample.deps ⟨ascii "Bearer good"⟩).err = some e
          ∧ e.Code = .Unauthenticated)
        ∧ (AuthHandler sample.deps ⟨ascii "Bearer good"⟩).uid = []
        ∧ (AuthHandler sample.deps ⟨ascii "Bearer good"⟩).claims = none) :=
  C4_bearer_success_iff sample.deps ⟨ascii "Bearer good"⟩ (ascii "good") (by decide)

/-- C5, as stated, fails: the verifier returns Claims whose Subject is a UUID
written in upper case; `AuthHandler` succeeds and the UID is the lower-case
form, which differs from the Subject. -/
theorem C5_uid_differs_from_subject :
    strings.Split (ascii "Bearer upper") 32 = [ascii "Bearer", ascii "upper"]
    ∧ sample.deps.Authenticate (ascii "Bearer upper") = .ok sample.upperClaims
    ∧ (AuthHandler sample.deps ⟨ascii "Bearer upper"⟩).err = none
    ∧ (AuthHandler sample.deps ⟨ascii "Bearer upper"⟩).claims = some sample.upperClaims
    ∧ (AuthHandler sample.deps ⟨ascii "Bearer upper"⟩).uid ≠ sample.upperClaims.Subject := by
  decide

/-- C5, amended.  When `AuthHandler` succeeds on a Bearer value, the returned
Claims are exactly the Claims of the token verifier, the UID is the canonical
(lower-case, hyphenated) string of the UUID parsed from `Claims.Subject`, and
the UID equals the Subject whenever the Subject is written in that canonical
form. -/
theorem C5_bearer_claims_and_uid (d : Deps) (ap : AuthParams) (tok : Str)
    (h : strings.Split ap.Authorization 32 = [ascii "Bearer", tok])
    (hok : (AuthHandler d ap).err = none) :
    ∃ claims u, d.Authenticate ap.Authorization = .ok claims
      ∧ (AuthHandler d ap).claims = some claims
      ∧ uuid.Parse claims.Subject = .ok u
      ∧ (AuthHandler d ap).uid = uuid.String u
      ∧ (∀ v, claims.Subject = uuid.String v → (AuthHandler d ap).uid = claims.Subject) := by
  rw [AuthHandler_bearer d ap tok h] at hok ⊢
  unfold processJWT at hok ⊢
  cases hA : d.Authenticate ap.Authorization with
  | error e => simp [hA, errs.New] at hok
  | ok claims =>
    by_cases hs : claims.Subject = []
    · simp [hA, hs, errs.Newf] at hok
    · cases hp : uuid.Parse claims.Subject with
      | error e => simp [hA, hs, hp, errs.New] at hok
      | ok u =>
        refine ⟨claims, u, rfl, ?_, hp, ?_, ?_⟩
        · simp [hs, hp]
        · simp [hs, hp]
        · intro v hv
          rw [hv] at hs
          simp [hs, hv, uuid.Parse_String]

theorem C5_bearer_claims_and_uid_witness :
    ∃ claims u, sample.deps.Authenticate (ascii "Bearer good") = .ok claims
      ∧ (AuthHandler sample.deps ⟨ascii "Bearer good"⟩).claims = some claims
      ∧ uuid.Parse claims.Subject = .ok u
      ∧ (AuthHandler sample.deps ⟨ascii "Bearer good"⟩).uid = uuid.String u
      ∧ (∀ v, claims.Subject = uuid.String v →
          (AuthHandler sample.deps ⟨ascii "Bearer good"⟩).uid = claims.Subject) :=
  C5_bearer_claims_and_uid sample.deps ⟨ascii "Bearer good"⟩ (ascii "good") (by decide)
    (by decide)

end appmid

/-! ## `AuthHandler`: the Basic form -/

namespace appmid

theorem parseBasicAuth_of_split (auth p1 : Str)
    (h : strings.Split auth 32 = [ascii "Basic", p1]) :
    parseBasicAuth auth =
      match base64.DecodeString p1 with
      | none => ([], [], false)
      | some c =>
        match strings.Cut c 58 with
        | (_, _, false) => ([], [], false)
        | (username, password, true) => (username, password, true) := by
  unfold parseBasicAuth
  rw [h]
  simp

theorem parseBasicAuth_true_iff (auth p1 : Str)
    (h : strings.Split auth 32 = [ascii "Basic", p1]) (email pass : Str) :
    parseBasicAuth auth = (email, pass, true) ↔
      ∃ c, base64.DecodeString p1 = some c ∧ c = email ++ 58 :: pass ∧ (58 : Byte) ∉ email := by
  rw [parseBasicAuth_of_split auth p1 h]
  cases hD : base64.DecodeString p1 with
  | none => simp
  | some c =>
    rcases hC : strings.Cut c 58 with ⟨u, p, f⟩
    simp only [hC]
    cases f with
    | false =>
      simp only [Prod.mk.injEq, Bool.false_eq_true, and_false, Option.some.injEq,
        exists_eq_left', false_iff, not_and]
      intro hc hm
      have := strings.Cut_append email pass 58 hm
      rw [← hc, hC] at this
      simp at this
    | true =>
      simp only [Option.some.injEq, exists_eq_left']
      rw [← strings.Cut_true_iff, hC]

/-- The four ways `processBasic` ends. -/
theorem processBasic_cases (d : Deps) (basic : Str) :
    ((∀ email pass, parseBasicAuth basic ≠ (email, pass, true))
      ∧ processBasic d basic
        = ⟨[], [], none, some (errs.Newf .Unauthenticated (.lit "invalid Basic auth"))⟩)
    ∨ ∃ email pass, parseBasicAuth basic = (email, pass, true)
      ∧ ((∃ e, d.ParseAddress email = .error e
          ∧ processBasic d basic
            = ⟨[], [], none, some (errs.New .Unauthenticated (.ofCollaborator e))⟩)
        ∨ ∃ addr, d.ParseAddress email = .ok addr
          ∧ ((∃ e, d.userAuthenticate addr pass = .error e
              ∧ processBasic d basic
                = ⟨[.userAuthenticate addr pass], [], none,
                    some (errs.New .Unauthenticated (.ofCollaborator e))⟩)
            ∨ ∃ usr, d.userAuthenticate addr pass = .ok usr
              ∧ processBasic d basic
                = ⟨[.userAuthenticate addr pass], uuid.String usr.ID,
                    some (basicClaims d usr), none⟩)) := by
  unfold processBasic
  rcases hP : parseBasicAuth basic with ⟨email, pass, f⟩
  cases f with
  | false => left; simp
  | true =>
    right
    refine ⟨email, pass, rfl, ?_⟩
    cases hA : d.ParseAddress email with
    | error e => left; exact ⟨e, rfl, by simp [hA]⟩
    | ok addr =>
      right
      refine ⟨addr, rfl, ?_⟩
      cases hU : d.userAuthenticate addr pass with
      | error e => left; exact ⟨e, rfl, by simp [hA, hU]⟩
      | ok usr =>
        right
        refine ⟨usr, rfl, ?_⟩
        simp [hA, hU, uuid.Parse_String, basicClaims]

/-- C6.  For an Authorization value of two space-separated parts of which the
first is `Basic`, `AuthHandler` succeeds exactly when the second part decodes
as standard base64 to a text with a `:`, the text before the first `:` parses
as an address and the credential verifier accepts that address with the text
after the first `:`; a text before the `:` that does not parse as an address is
rejected as `Unauthenticated` without a call to the credential verifier; and
the error of the last branch (`parsing subject`) is never returned. -/
theorem C6_basic_success_iff (d : Deps) (ap : AuthParams) (p1 : Str)
    (h : strings.Split ap.Authorization 32 = [ascii "Basic", p1]) :
    ((AuthHandler d ap).err = none ↔
      ∃ c email pass addr usr, base64.DecodeString p1 = some c
        ∧ c = email ++ 58 :: pass ∧ (58 : Byte) ∉ email
        ∧ d.ParseAddress email = .ok addr ∧ d.userAuthenticate addr pass = .ok usr)
    ∧ (∀ c email pass e, base64.DecodeString p1 = some c → c = email ++ 58 :: pass →
        (58 : Byte) ∉ email → d.ParseAddress email = .error e →
        AuthHandler d ap
          = ⟨[], [], none, some ⟨.Unauthenticated, .ofCollaborator e⟩⟩)
    ∧ (∀ e, (AuthHandler d ap).err
        ≠ some (errs.Newf .Unauthenticated (.prefixed "parsing subject: " (.ofUUID e)))) := by
  rw [AuthHandler_basic d ap p1 h]
  have hiff := parseBasicAuth_true_iff ap.Authorization p1 h
  rcases processBasic_cases d ap.Authorization with
    ⟨hno, hr⟩ | ⟨email, pass, hp, ⟨e, hA, hr⟩ | ⟨addr, hA, ⟨e, hU, hr⟩ | ⟨usr, hU, hr⟩⟩⟩
  · rw [hr]
    refine ⟨⟨fun hc => by simp at hc, ?_⟩, ?_, fun e => by simp [errs.Newf]⟩
    · rintro ⟨c, email, pass, addr, usr, hD, hc, hm, -, -⟩
      exact absurd ((hiff email pass).2 ⟨c, hD, hc, hm⟩) (hno email pass)
    · intro c email pass e hD hc hm _
      exact absurd ((hiff email pass).2 ⟨c, hD, hc, hm⟩) (hno email pass)
  · rw [hr]
    refine ⟨⟨fun hc => by simp at hc, ?_⟩, ?_, fun e2 => by simp [errs.Newf, errs.New]⟩
    · rintro ⟨c, email2, pass2, addr, usr, hD, hc, hm, hA2, -⟩
      have h2 := (hiff email2 pass2).2 ⟨c, hD, hc, hm⟩
      rw [hp] at h2
      simp only [Prod.mk.injEq, and_true] at h2
      rw [← h2.1, hA] at hA2
      simp at hA2
    · intro c email2 pass2 e2 hD hc hm hA2
      have h2 := (hiff email2 pass2).2 ⟨c, hD, hc, hm⟩
      rw [hp] at h2
      simp only [Prod.mk.injEq, and_true] at h2
      rw [← h2.1, hA] at hA2
      simp only [Except.error.injEq] at hA2
      rw [hA2]
      rfl
  · rw [hr]
    refine ⟨⟨fun hc => by simp at hc, ?_⟩, ?_, fun e2 => by simp [errs.Newf, errs.New]⟩
    · rintro ⟨c, email2, pass2, addr2, usr, hD, hc, hm, hA2, hU2⟩
      have h2 := (hiff email2 pass2).2 ⟨c, hD, hc, hm⟩
      rw [hp] at h2
      simp only [Prod.mk.injEq, and_true] at h2
      rw [← h2.1, hA] at hA2
      simp only [Except.ok.injEq] at hA2
      rw [← h2.2, ← hA2, hU] at hU2
      simp at hU2
    · intro c email2 pass2 e2 hD hc hm hA2
      have h2 := (hiff email2 pass2).2 ⟨c, hD, hc, hm⟩
      rw [hp] at h2
      simp only [Prod.mk.injEq, and_true] at h2
      rw [← h2.1, hA] at hA2
      simp at hA2
  · rw [hr]
    refine ⟨⟨fun _ => ?_, fun _ => rfl⟩, ?_, fun e2 => by simp⟩
    · obtain ⟨c, hD, hc, hm⟩ := (hiff email pass).1 hp
      exact ⟨c, email, pass, addr, usr, hD, hc, hm, hA, hU⟩
    · intro c email2 pass2 e2 hD hc hm hA2
      have h2 := (hiff email2 pass2).2 ⟨c, hD, hc, hm⟩
      rw [hp] at h2
      simp only [Prod.mk.injEq, and_true] at h2
      rw [← h2.1, hA] at hA2
      simp at hA2

theorem C6_basic_success_iff_witness :
    ((AuthHandler sample.deps sample.basicGood).err = none ↔
      ∃ c email pass addr usr,
        base64.DecodeString (ascii "dXNlckBleGFtcGxlLmNvbTpjb3JyZWN0OnBhc3M=") = some c
        ∧ c = email ++ 58 :: pass ∧ (58 : Byte) ∉ email
        ∧ sample.deps.ParseAddress email = .ok addr
        ∧ sample.deps.userAuthenticate addr pass = .ok usr)
    ∧ (∀ c email pass e,
        base64.DecodeString (ascii "dXNlckBleGFtcGxlLmNvbTpjb3JyZWN0OnBhc3M=") = some c →
        c = email ++ 58 :: pass → (58 : Byte) ∉ email →
        sample.deps.ParseAddress email = .error e →
        AuthHandler sample.deps sample.basicGood
          = ⟨[], [], none, some ⟨.Unauthenticated, .ofCollaborator e⟩⟩)
    ∧ (∀ e, (AuthHandler sample.deps sample.basicGood).err
        ≠ some (errs.Newf .Unauthenticated (.prefixed "parsing subject: " (.ofUUID e)))) :=
  C6_basic_success_iff sample.deps sample.basicGood
    (ascii "dXNlckBleGFtcGxlLmNvbTpjb3JyZWN0OnBhc3M=") (by decide)

/-- Truncation commutes with adding an hour when the precision divides the
hour. -/
theorem Truncate_add_Hour (t prec : Nat) (hp : prec ∣ Hour) :
    Truncate (t + Hour) prec = Truncate t prec + Hour := by
  unfold Truncate
  by_cases h0 : prec = 0
  · simp [h0]
  · rw [if_neg h0, if_neg h0]
    have hm : (t + Hour) % prec = t % prec := by
      obtain ⟨k, hk⟩ := hp
      rw [hk, Nat.add_mul_mod_self_left]
    have hle : t % prec ≤ t := Nat.mod_le t prec
    rw [hm]
    omega

/-- C7, as stated, fails: `processBasic` reads the clock twice, first for
`ExpiresAt` and then for `IssuedAt`.  With the two readings one nanosecond
apart on either side of a full second, `ExpiresAt` is 3599 seconds after
`IssuedAt`, not one hour. -/
theorem C7_expiry_not_one_hour_after_issue :
    (AuthHandler sample.deps sample.basicGood).err = none
    ∧ ((AuthHandler sample.deps sample.basicGood).claims.map fun c => c.IssuedAt)
      = some (some 63900000001000000000)
    ∧ ((AuthHandler sample.deps sample.basicGood).claims.map fun c => c.ExpiresAt)
      = some (some (63900000001000000000 + 3599 * 1000000000))
    ∧ ((AuthHandler sample.deps sample.basicGood).claims.map fun c => c.ExpiresAt)
      ≠ ((AuthHandler sample.deps sample.basicGood).claims.map fun c =>
          c.IssuedAt.map fun t => t + Hour) := by
  decide

/-- C7, amended.  When `AuthHandler` succeeds on a Basic value, the credential
verifier accepted a user record `usr`, and the Claims have Subject equal to
the string of `usr.ID`, Issuer `service project`, the roles of `usr`,
`IssuedAt` equal to the second clock reading and `ExpiresAt` equal to the
first clock reading plus one hour, both truncated to `jwt.TimePrecision`; the
UID equals the Subject; and when the two readings are equal and the precision
divides the hour, `ExpiresAt` is exactly one hour after `IssuedAt`, hence
later. -/
theorem C7_basic_claims (d : Deps) (ap : AuthParams) (p1 : Str)
    (h : strings.Split ap.Authorization 32 = [ascii "Basic", p1])
    (hok : (AuthHandler d ap).err = none) :
    ∃ addr pass usr claims, d.userAuthenticate addr pass = .ok usr
      ∧ (AuthHandler d ap).calls = [.userAuthenticate addr pass]
      ∧ (AuthHandler d ap).claims = some claims
      ∧ claims.Subject = uuid.String usr.ID
      ∧ claims.Issuer = ascii "service project"
      ∧ claims.Roles = usr.Roles
      ∧ claims.IssuedAt = some (Truncate d.nowSecond d.TimePrecision)
      ∧ claims.ExpiresAt = some (Truncate (d.nowFirst + Hour) d.TimePrecision)
      ∧ (AuthHandler d ap).uid = claims.Subject
      ∧ (d.nowFirst = d.nowSecond → d.TimePrecision ∣ Hour →
          ∃ issued, claims.IssuedAt = some issued ∧ claims.ExpiresAt = some (issued + Hour)
            ∧ issued < issued + Hour) := by
  rw [AuthHandler_basic d ap p1 h] at hok ⊢
  rcases processBasic_cases d ap.Authorization with
    ⟨_, hr⟩ | ⟨email, pass, _, ⟨e, _, hr⟩ | ⟨addr, _, ⟨e, _, hr⟩ | ⟨usr, hU, hr⟩⟩⟩
  · rw [hr] at hok; simp at hok
  · rw [hr] at hok; simp at hok
  · rw [hr] at hok; simp at hok
  · rw [hr]
    refine ⟨addr, pass, usr, basicClaims d usr, hU, rfl, rfl, rfl, rfl, rfl, rfl, rfl, rfl, ?_⟩
    intro hnow hprec
    refine ⟨Truncate d.nowSecond d.TimePrecision, rfl, ?_, ?_⟩
    · show some (Truncate (d.nowFirst + Hour) d.TimePrecision) = _
      rw [hnow, Truncate_add_Hour _ _ hprec]
    · simp [Hour]

theorem C7_basic_claims_witness :
    ∃ addr pass usr claims, sample.depsOneReading.userAuthenticate addr pass = .ok usr
      ∧ (AuthHandler sample.depsOneReading sample.basicGood).calls
        = [.userAuthenticate addr pass]
      ∧ (AuthHandler sample.depsOneReading sample.basicGood).claims = some claims
      ∧ claims.Subject = uuid.String usr.ID
      ∧ claims.Issuer = ascii "service project"
      ∧ claims.Roles = usr.Roles
      ∧ claims.IssuedAt
        = some (Truncate sample.depsOneReading.nowSecond sample.depsOneReading.TimePrecision)
      ∧ claims.ExpiresAt
        = some (Truncate (sample.depsOneReading.nowFirst + Hour)
            sample.depsOneReading.TimePrecision)
      ∧ (AuthHandler sample.depsOneReading sample.basicGood).uid = claims.Subject
      ∧ (sample.depsOneReading.nowFirst = sample.depsOneReading.nowSecond →
          sample.depsOneReading.TimePrecision ∣ Hour →
          ∃ issued, claims.IssuedAt = some issued ∧ claims.ExpiresAt = some (issued + Hour)
            ∧ issued < issued + Hour) :=
  C7_basic_claims sample.depsOneReading sample.basicGood
    (ascii "dXNlckBleGFtcGxlLmNvbTpjb3JyZWN0OnBhc3M=") (by decide) (by decide)

/-! ## `AuthHandler`: malformed values and other schemes -/

/-- C8, as stated, fails: the value `Bearer a<TAB>b` has three
white-space-separated parts, yet it has two space-separated parts and
`AuthHandler` calls the token verifier on it. -/
theorem C8_tab_reaches_verifier :
    (strings.Fields (ascii "Bearer a\tb")).length = 3
    ∧ (AuthHandler sample.deps ⟨ascii "Bearer a\tb"⟩).calls
      = [.Authenticate (ascii "Bearer a\tb")] := by
  decide

/-- C8, amended.  For every Authorization value that does not split into
exactly two parts at its space bytes (the empty value included), `AuthHandler`
returns an `Unauthenticated` error, an empty UID and nil Claims, and calls
neither verifier. -/
theorem C8_not_two_parts (d : Deps) (ap : AuthParams)
    (h : (strings.Split ap.Authorization 32).length ≠ 2) :
    (AuthHandler d ap).calls = []
    ∧ (AuthHandler d ap).uid = []
    ∧ (AuthHandler d ap).claims = none
    ∧ ∃ e, (AuthHandler d ap).err = some e ∧ e.Code = .Unauthenticated := by
  unfold AuthHandler
  split
  · rename_i p0 p1 heq
    rw [heq] at h
    simp at h
  · simp [errs.Newf]

theorem C8_not_two_parts_witness :
    (AuthHandler sample.deps ⟨[]⟩).calls = []
    ∧ (AuthHandler sample.deps ⟨[]⟩).uid = []
    ∧ (AuthHandler sample.deps ⟨[]⟩).claims = none
    ∧ ∃ e, (AuthHandler sample.deps ⟨[]⟩).err = some e ∧ e.Code = .Unauthenticated :=
  C8_not_two_parts sample.deps ⟨[]⟩ (by decide)

/-- C9.  For an Authorization value of exactly two space-separated parts: if
the first part is neither `Bearer` nor `Basic` (byte for byte), `AuthHandler`
returns an `Unauthenticated` error, an empty UID and nil Claims and calls
neither verifier; if it is `Bearer`, every call made is to the token verifier;
if it is `Basic`, every call made is to the credential verifier. -/
theorem C9_scheme_dispatch (d : Deps) (ap : AuthParams) (p0 p1 : Str)
    (h : strings.Split ap.Authorization 32 = [p0, p1]) :
    (p0 ≠ ascii "Bearer" → p0 ≠ ascii "Basic" →
      (AuthHandler d ap).calls = [] ∧ (AuthHandler d ap).uid = []
        ∧ (AuthHandler d ap).claims = none
        ∧ ∃ e, (AuthHandler d ap).err = some e ∧ e.Code = .Unauthenticated)
    ∧ (p0 = ascii "Bearer" →
        ∀ c ∈ (AuthHandler d ap).calls, ∃ token, c = .Authenticate token)
    ∧ (p0 = ascii "Basic" →
        ∀ c ∈ (AuthHandler d ap).calls, ∃ addr pass, c = .userAuthenticate addr pass) := by
  refine ⟨?_, ?_, ?_⟩
  · intro h1 h2
    unfold AuthHandler
    rw [h]
    simp [h1, h2, errs.Newf]
  · intro h1
    subst h1
    rw [AuthHandler_bearer d ap p1 h]
    unfold processJWT
    intro c hc
    refine ⟨ap.Authorization, ?_⟩
    split at hc
    · simpa using hc
    · split at hc
      · simpa using hc
      · split at hc <;> simpa using hc
  · intro h1
    subst h1
    rw [AuthHandler_basic d ap p1 h]
    intro c hc
    rcases processBasic_cases d ap.Authorization with
      ⟨_, hr⟩ | ⟨email, pass, _, ⟨e, _, hr⟩ | ⟨addr, _, ⟨e, _, hr⟩ | ⟨usr, _, hr⟩⟩⟩
    · rw [hr] at hc; simp at hc
    · rw [hr] at hc; simp at hc
    · rw [hr] at hc; exact ⟨addr, pass, by simpa using hc⟩
    · rw [hr] at hc; exact ⟨addr, pass, by simpa using hc⟩

theorem C9_scheme_dispatch_witness :
    ((AuthHandler sample.deps ⟨ascii "bearer good"⟩).calls = []
      ∧ (AuthHandler sample.deps ⟨ascii "bearer good"⟩).uid = []
      ∧ (AuthHandler sample.deps ⟨ascii "bearer good"⟩).claims = none
      ∧ ∃ e, (AuthHandler sample.deps ⟨ascii "bearer good"⟩).err = some e
        ∧ e.Code = .Unauthenticated)
    ∧ (∀ c ∈ (AuthHandler sample.deps ⟨ascii "Bearer good"⟩).calls,
        ∃ token, c = .Authenticate token)
    ∧ (∀ c ∈ (AuthHandler sample.deps sample.basicGood).calls,
        ∃ addr pass, c = .userAuthenticate addr pass) :=
  ⟨(C9_scheme_dispatch sample.deps ⟨ascii "bearer good"⟩ (ascii "bearer") (ascii "good")
      (by decide)).1 (by decide) (by decide),
    (C9_scheme_dispatch sample.deps ⟨ascii "Bearer good"⟩ (ascii "Bearer") (ascii "good")
      (by decide)).2.1 rfl,
    (C9_scheme_dispatch sample.deps sample.basicGood (ascii "Basic")
      (ascii "dXNlckBleGFtcGxlLmNvbTpjb3JyZWN0OnBhc3M=") (by decide)).2.2 rfl⟩

/-- C10.  For an email without `:` and any password, `parseBasicAuth` applied
to `Basic ` followed by the standard base64 encoding of `email:password`
returns `(email, password, true)`: the text is cut at the first `:` only. -/
theorem C10_parseBasicAuth_roundtrip (email pass : Str) (h : (58 : Byte) ∉ email) :
    parseBasicAuth (ascii "Basic " ++ base64.EncodeToString (email ++ 58 :: pass))
      = (email, pass, true) := by
  have hsplit : strings.Split
      (ascii "Basic " ++ base64.EncodeToString (email ++ 58 :: pass)) 32
      = [ascii "Basic", base64.EncodeToString (email ++ 58 :: pass)] := by
    have h1 : ascii "Basic " = ascii "Basic" ++ [32] := by decide
    have h2 : (32 : Byte) ∉ ascii "Basic" := by decide
    rw [h1, List.append_assoc, List.singleton_append, strings.Split_append _ _ _ h2,
      strings.Split_of_not_mem _ _ (base64.space_not_mem_EncodeToString _)]
  rw [parseBasicAuth_true_iff _ _ hsplit]
  exact ⟨_, base64.DecodeString_EncodeToString _, rfl, h⟩

theorem C10_parseBasicAuth_roundtrip_witness :
    parseBasicAuth
        (ascii "Basic " ++ base64.EncodeToString (ascii "user@example.com" ++ 58 :: ascii "a:b"))
      = (ascii "user@example.com", ascii "a:b", true) :=
  C10_parseBasicAuth_roundtrip (ascii "user@example.com") (ascii "a:b") (by decide)

end appmid

/-! ## The middleware of `business/api/mid` -/

namespace bizmid

theorem authorizeAndForward_EndsBy (a : Auth) (claims : Claims) (calls : List MidCall)
    (userID : UUID) (rule : Rule) (req : Request) (next : Request → Response)
    (h : MidCall.nextReqs calls = []) :
    EndsBy (authorizeAndForward a claims calls userID rule req next)
      (a.Authorize claims userID rule) req next := by
  unfold authorizeAndForward EndsBy
  cases hv : a.Authorize claims userID rule with
  | none =>
    simp only [MidCall.nextReqs, List.filterMap_append] at h ⊢
    simp [h, List.filterMap_cons]
  | some err =>
    simp only [MidCall.nextReqs, List.filterMap_append] at h ⊢
    simp [h, List.filterMap_cons, NewResponsef]

theorem authorizeAndForward_owners (a : Auth) (claims : Claims) (calls : List MidCall)
    (userID : UUID) (rule : Rule) (req : Request) (next : Request → Response) :
    MidCall.owners (authorizeAndForward a claims calls userID rule req next).calls
        = MidCall.owners calls ++ [userID]
      ∧ MidCall.queried (authorizeAndForward a claims calls userID rule req next).calls
        = MidCall.queried calls := by
  unfold authorizeAndForward
  cases hv : a.Authorize claims userID rule <;>
    simp [MidCall.owners, MidCall.queried, List.filterMap_append, List.filterMap_cons]

theorem AuthorizeUser_resolved (a : Auth) (q : UUID → Except QueryError User)
    (claims : Claims) (req : Request) (next : Request → Response)
    (res : Option (UUID × User)) (h : Resolved q req res) :
    AuthorizeUser a q claims req next =
      authorizeAndForward a claims (queryCalls res) (resolvedID res) (userRuleOfTags req.Tags)
        (attach setUser req res) next := by
  unfold AuthorizeUser
  rcases h with ⟨hlen, rfl⟩ | ⟨p, id, x, hp, hparse, hq, rfl⟩
  · split
    · rename_i heq
      rw [heq] at hlen
      simp at hlen
    · rfl
  · rw [hp]
    simp [hparse, hq, queryCalls, resolvedID, resolvedOwner, attach]

theorem AuthorizeProduct_resolved (a : Auth) (q : UUID → Except QueryError Product)
    (claims : Claims) (req : Request) (next : Request → Response)
    (res : Option (UUID × Product)) (h : Resolved q req res) :
    AuthorizeProduct a q claims req next =
      authorizeAndForward a claims (queryCalls res) (resolvedOwner (fun x => x.UserID) res) .RuleAdminOrSubject
        (attach setProduct req res) next := by
  unfold AuthorizeProduct
  rcases h with ⟨hlen, rfl⟩ | ⟨p, id, x, hp, hparse, hq, rfl⟩
  · split
    · rename_i heq
      rw [heq] at hlen
      simp at hlen
    · rfl
  · rw [hp]
    simp [hparse, hq, queryCalls, resolvedID, resolvedOwner, attach]

theorem AuthorizeHome_resolved (a : Auth) (q : UUID → Except QueryError Home)
    (claims : Claims) (req : Request) (next : Request → Response)
    (res : Option (UUID × Home)) (h : Resolved q req res) :
    AuthorizeHome a q claims req next =
      authorizeAndForward a claims (queryCalls res) (resolvedOwner (fun x => x.UserID) res) .RuleAdminOrSubject
        (attach setHome req res) next := by
  unfold AuthorizeHome
  rcases h with ⟨hlen, rfl⟩ | ⟨p, id, x, hp, hparse, hq, rfl⟩
  · split
    · rename_i heq
      rw [heq] at hlen
      simp at hlen
    · rfl
  · rw [hp]
    simp [hparse, hq, queryCalls, resolvedID, resolvedOwner, attach]

/-- C1.  For `Authorize`, `AuthorizeUser`, `AuthorizeProduct` and
`AuthorizeHome`, once the resource resolution has succeeded: `next` is called
exactly when the rule engine returns no error, and then its response is the
response; when the rule engine returns an error, `next` is not called and the
response carries HTTP 401. -/
theorem C1_next_iff_rule_engine_allows (a : Auth) (claims : Claims) (req : Request)
    (next : Request → Response) :
    EndsBy (Authorize a claims req next)
        (a.Authorize claims uuid.Nil (ruleOfTags req.Tags)) req next
    ∧ (∀ (q : UUID → Except QueryError User) (res : Option (UUID × User)),
        Resolved q req res →
        EndsBy (AuthorizeUser a q claims req next)
          (a.Authorize claims (resolvedID res) (userRuleOfTags req.Tags))
          (attach setUser req res) next)
    ∧ (∀ (q : UUID → Except QueryError Product) (res : Option (UUID × Product)),
        Resolved q req res →
        EndsBy (AuthorizeProduct a q claims req next)
          (a.Authorize claims (resolvedOwner (fun prd => prd.UserID) res) .RuleAdminOrSubject)
          (attach setProduct req res) next)
    ∧ (∀ (q : UUID → Except QueryError Home) (res : Option (UUID × Home)),
        Resolved q req res →
        EndsBy (AuthorizeHome a q claims req next)
          (a.Authorize claims (resolvedOwner (fun hme => hme.UserID) res) .RuleAdminOrSubject)
          (attach setHome req res) next) := by
  have hq : ∀ {α : Type} (res : Option (UUID × α)), MidCall.nextReqs (queryCalls res) = [] := by
    intro α res
    rcases res with _ | ⟨id, x⟩ <;> rfl
  refine ⟨authorizeAndForward_EndsBy _ _ _ _ _ _ _ rfl, ?_, ?_, ?_⟩
  · intro q res h
    rw [AuthorizeUser_resolved a q claims req next res h]
    exact authorizeAndForward_EndsBy _ _ _ _ _ _ _ (hq res)
  · intro q res h
    rw [AuthorizeProduct_resolved a q claims req next res h]
    exact authorizeAndForward_EndsBy _ _ _ _ _ _ _ (hq res)
  · intro q res h
    rw [AuthorizeHome_resolved a q claims req next res h]
    exact authorizeAndForward_EndsBy _ _ _ _ _ _ _ (hq res)

theorem C1_next_iff_rule_engine_allows_witness :
    EndsBy
        (AuthorizeUser spec.auth sample.QueryByID sample.userClaims sample.updateUser1
          sample.next)
        (spec.auth.Authorize sample.userClaims sample.U1 .RuleAdminOrSubject)
        (setUser sample.updateUser1 sample.user1) sample.next
    ∧ EndsBy
        (AuthorizeProduct spec.auth sample.QueryProductByID sample.userClaims
          sample.updateUser1 sample.next)
        (spec.auth.Authorize sample.userClaims sample.U2 .RuleAdminOrSubject)
        (setProduct sample.updateUser1 ⟨sample.U1, sample.U2, ascii "Comic"⟩) sample.next
    ∧ EndsBy
        (AuthorizeHome spec.auth sample.QueryHomeByID sample.userClaims sample.listUsers
          sample.next)
        (spec.auth.Authorize sample.userClaims uuid.Nil .RuleAdminOrSubject)
        sample.listUsers sample.next :=
  ⟨(C1_next_iff_rule_engine_allows spec.auth sample.userClaims sample.updateUser1
      sample.next).2.1 sample.QueryByID (some (sample.U1, sample.user1))
      (Or.inr ⟨_, _, _, rfl, by decide, by decide, rfl⟩),
    (C1_next_iff_rule_engine_allows spec.auth sample.userClaims sample.updateUser1
      sample.next).2.2.1 sample.QueryProductByID
      (some (sample.U1, ⟨sample.U1, sample.U2, ascii "Comic"⟩))
      (Or.inr ⟨_, _, _, rfl, by decide, by decide, rfl⟩),
    (C1_next_iff_rule_engine_allows spec.auth sample.userClaims sample.listUsers
      sample.next).2.2.2 sample.QueryHomeByID none (Or.inl ⟨by decide, rfl⟩)⟩

theorem Resolved_none {α : Type} (q : UUID → Except QueryError α) (req : Request)
    (h : req.PathParams.length ≠ 1) : Resolved q req none := Or.inl ⟨h, rfl⟩

theorem Resolved_some {α : Type} (q : UUID → Except QueryError α) (req : Request)
    (p : PathParam) (id : UUID) (x : α) (hp : req.PathParams = [p])
    (hparse : uuid.Parse p.Value = .ok id) (hq : q id = .ok x) :
    Resolved q req (some (id, x)) := Or.inr ⟨p, id, x, hp, hparse, hq, rfl⟩

/-- C2.  The resource-owner identity handed to the rule engine is the zero
UUID in `Authorize`; in `AuthorizeUser`, with exactly one path parameter that
parses as a UUID naming an existing user, it is that UUID; in
`AuthorizeProduct` and `AuthorizeHome`, with exactly one path parameter naming
an existing record, it is the `UserID` of the record returned by `QueryByID`;
and whenever the request does not have exactly one path parameter it is the
zero UUID and `QueryByID` is not called. -/
theorem C2_owner_handed_to_rule_engine (a : Auth) (claims : Claims) (req : Request)
    (next : Request → Response) (qU : UUID → Except QueryError User)
    (qP : UUID → Except QueryError Product) (qH : UUID → Except QueryError Home) :
    (MidCall.owners (Authorize a claims req next).calls = [uuid.Nil]
      ∧ MidCall.queried (Authorize a claims req next).calls = [])
    ∧ (∀ p id usr, req.PathParams = [p] → uuid.Parse p.Value = .ok id → qU id = .ok usr →
        MidCall.owners (AuthorizeUser a qU claims req next).calls = [id])
    ∧ (∀ p id prd, req.PathParams = [p] → uuid.Parse p.Value = .ok id → qP id = .ok prd →
        MidCall.owners (AuthorizeProduct a qP claims req next).calls = [prd.UserID])
    ∧ (∀ p id hme, req.PathParams = [p] → uuid.Parse p.Value = .ok id → qH id = .ok hme →
        MidCall.owners (AuthorizeHome a qH claims req next).calls = [hme.UserID])
    ∧ (req.PathParams.length ≠ 1 →
        (MidCall.owners (AuthorizeUser a qU claims req next).calls = [uuid.Nil]
          ∧ MidCall.queried (AuthorizeUser a qU claims req next).calls = [])
        ∧ (MidCall.owners (AuthorizeProduct a qP claims req next).calls = [uuid.Nil]
          ∧ MidCall.queried (AuthorizeProduct a qP claims req next).calls = [])
        ∧ (MidCall.owners (AuthorizeHome a qH claims req next).calls = [uuid.Nil]
          ∧ MidCall.queried (AuthorizeHome a qH claims req next).calls = [])) := by
  refine ⟨?_, ?_, ?_, ?_, ?_⟩
  · unfold Authorize
    have h := authorizeAndForward_owners a claims [] uuid.Nil (ruleOfTags req.Tags) req next
    exact ⟨by rw [h.1]; rfl, by rw [h.2]; rfl⟩
  · intro p id usr hp hparse hq
    rw [AuthorizeUser_resolved a qU claims req next _ (Resolved_some qU req p id usr hp hparse hq),
      (authorizeAndForward_owners _ _ _ _ _ _ _).1]
    rfl
  · intro p id prd hp hparse hq
    rw [AuthorizeProduct_resolved a qP claims req next _
        (Resolved_some qP req p id prd hp hparse hq),
      (authorizeAndForward_owners _ _ _ _ _ _ _).1]
    rfl
  · intro p id hme hp hparse hq
    rw [AuthorizeHome_resolved a qH claims req next _
        (Resolved_some qH req p id hme hp hparse hq),
      (authorizeAndForward_owners _ _ _ _ _ _ _).1]
    rfl
  · intro hlen
    rw [AuthorizeUser_resolved a qU claims req next _ (Resolved_none qU req hlen),
      AuthorizeProduct_resolved a qP claims req next _ (Resolved_none qP req hlen),
      AuthorizeHome_resolved a qH claims req next _ (Resolved_none qH req hlen)]
    simp only [authorizeAndForward_owners]
    exact ⟨⟨rfl, rfl⟩, ⟨rfl, rfl⟩, ⟨rfl, rfl⟩⟩

theorem C2_owner_handed_to_rule_engine_witness :
    MidCall.owners
        (AuthorizeUser spec.auth sample.QueryByID sample.userClaims sample.updateUser2
          sample.next).calls = [sample.U2]
    ∧ MidCall.owners
        (AuthorizeProduct spec.auth sample.QueryProductByID sample.userClaims
          sample.updateUser1 sample.next).calls = [sample.U2]
    ∧ MidCall.owners
        (AuthorizeHome spec.auth sample.QueryHomeByID sample.userClaims sample.updateUser2
          sample.next).calls = [sample.U1]
    ∧ MidCall.owners
        (AuthorizeUser spec.auth sample.QueryByID sample.userClaims sample.listUsers
          sample.next).calls = [uuid.Nil]
    ∧ MidCall.queried
        (AuthorizeUser spec.auth sample.QueryByID sample.userClaims sample.listUsers
          sample.next).calls = [] :=
  ⟨(C2_owner_handed_to_rule_engine spec.auth sample.userClaims sample.updateUser2 sample.next
      sample.QueryByID sample.QueryProductByID sample.QueryHomeByID).2.1
      _ sample.U2 sample.user2 rfl (by decide) (by decide),
    (C2_owner_handed_to_rule_engine spec.auth sample.userClaims sample.updateUser1 sample.next
      sample.QueryByID sample.QueryProductByID sample.QueryHomeByID).2.2.1
      _ sample.U1 ⟨sample.U1, sample.U2, ascii "Comic"⟩ rfl (by decide) (by decide),
    (C2_owner_handed_to_rule_engine spec.auth sample.userClaims sample.updateUser2 sample.next
      sample.QueryByID sample.QueryProductByID sample.QueryHomeByID).2.2.2.1
      _ sample.U2 ⟨sample.U2, sample.U1, ascii "CONDO"⟩ rfl (by decide) (by decide),
    ((C2_owner_handed_to_rule_engine spec.auth sample.userClaims sample.listUsers sample.next
      sample.QueryByID sample.QueryProductByID sample.QueryHomeByID).2.2.2.2
      (by decide)).1⟩

end bizmid

/-! ## `AuthorizeUser` of `business/web/v1/mid` -/

namespace v1mid

/-- Every call of the version-1 `AuthorizeUser` to the rule engine passes the
zero UUID, whatever the request. -/
theorem AuthorizeUser_owner_zero (a : Auth) (q : UUID → Except QueryError User)
    (claims : Claims) (req : Request) (next : Request → Response) :
    ∀ id ∈ MidCall.owners (AuthorizeUser a q claims req next).calls, id = uuid.Nil := by
  have haf : ∀ calls req2, MidCall.owners calls = [] →
      ∀ id ∈ MidCall.owners (authorizeAndForward a claims calls uuid.Nil req2 next).calls,
        id = uuid.Nil := by
    intro calls req2 hc id hid
    have ho : MidCall.owners (authorizeAndForward a claims calls uuid.Nil req2 next).calls
        = MidCall.owners calls ++ [uuid.Nil] := by
      unfold authorizeAndForward
      cases hv : a.Authorize claims uuid.Nil .RuleAdminOrSubject <;>
        simp [MidCall.owners, List.filterMap_append, List.filterMap_cons]
    rw [ho, hc] at hid
    simpa using hid
  unfold AuthorizeUser
  intro id hid
  split at hid
  · split at hid
    · simp [MidCall.owners] at hid
    · split at hid
      · split at hid <;> simp [MidCall.owners] at hid
      · exact haf _ _ (by rfl) id hid
  · exact haf [] req (by rfl) id hid

/-- C3, on the code.  The caller holds only the `USER` role and its subject is
`U1`; the request has the single path parameter `U1`, which parses and names an
existing user.  `AuthorizeUser` of `business/web/v1/mid` hands the zero UUID,
not `U1`, to the rule engine under `RuleAdminOrSubject`; with the rule engine
of the specification the caller is rejected and `next` is not called, while
`AuthorizeUser` of `business/api/mid` hands over `U1` and forwards the same
request. -/
theorem C3_v1_owner_is_zero_uuid :
    sample.updateUser1.PathParams
        = [⟨ascii "userID", ascii "aaaaaaaa-aaaa-aaaa-aaaa-aaaaaaaaaaaa"⟩]
    ∧ uuid.Parse (ascii "aaaaaaaa-aaaa-aaaa-aaaa-aaaaaaaaaaaa") = .ok sample.U1
    ∧ sample.QueryByID sample.U1 = .ok sample.user1
    ∧ sample.userClaims.Roles = [spec.USER]
    ∧ uuid.Parse sample.userClaims.Subject = .ok sample.U1
    ∧ (AuthorizeUser spec.auth sample.QueryByID sample.userClaims sample.updateUser1
        sample.next).calls
      = [.QueryByID sample.U1, .Authorize sample.userClaims uuid.Nil .RuleAdminOrSubject]
    ∧ (AuthorizeUser spec.auth sample.QueryByID sample.userClaims sample.updateUser1
        sample.next).resp.HTTPStatus = StatusBadRequest
    ∧ spec.Decide sample.userClaims .RuleAdminOrSubject sample.U1 = true
    ∧ (bizmid.AuthorizeUser spec.auth sample.QueryByID sample.userClaims sample.updateUser1
        sample.next).calls
      = [.QueryByID sample.U1, .Authorize sample.userClaims sample.U1 .RuleAdminOrSubject,
          .next (bizmid.setUser sample.updateUser1 sample.user1)] := by
  decide

end v1mid

/-! ## `business/api/mid`: failures of the resource resolution -/

namespace bizmid

/-- C11, as stated, fails: on the single path parameter `not-a-uuid` the three
middleware answer with `http.StatusUnauthorized` (401), not 400. -/
theorem C11_bad_id_status_is_not_400 :
    (∃ e, uuid.Parse (ascii "not-a-uuid") = .error e)
    ∧ sample.badID.PathParams = [⟨ascii "userID", ascii "not-a-uuid"⟩]
    ∧ (AuthorizeUser spec.auth sample.QueryByID sample.userClaims sample.badID
        sample.next).resp.HTTPStatus = 401
    ∧ (AuthorizeProduct spec.auth sample.QueryProductByID sample.userClaims sample.badID
        sample.next).resp.HTTPStatus = 401
    ∧ (AuthorizeHome spec.auth sample.QueryHomeByID sample.userClaims sample.badID
        sample.next).resp.HTTPStatus = 401
    ∧ (AuthorizeUser spec.auth sample.QueryByID sample.userClaims sample.badID
        sample.next).resp.HTTPStatus ≠ StatusBadRequest := by
  refine ⟨⟨_, rfl⟩, ?_⟩
  decide

/-- C11, amended.  For `AuthorizeUser`, `AuthorizeProduct` and `AuthorizeHome`:
when the request has exactly one path parameter and its value does not parse
as a UUID, the response carries `ErrInvalidID` with HTTP 401, and no call is
made: not to `QueryByID`, not to the rule engine, not to `next`. -/
theorem C11_bad_id_rejected (a : Auth) (claims : Claims) (req : Request)
    (next : Request → Response) (p : PathParam) (e : uuid.ParseError)
    (hp : req.PathParams = [p]) (he : uuid.Parse p.Value = .error e) :
    (∀ q, (AuthorizeUser a q claims req next).calls = []
      ∧ (AuthorizeUser a q claims req next).resp.HTTPStatus = StatusUnauthorized
      ∧ (AuthorizeUser a q claims req next).resp.Err = some ErrInvalidID)
    ∧ (∀ q, (AuthorizeProduct a q claims req next).calls = []
      ∧ (AuthorizeProduct a q claims req next).resp.HTTPStatus = StatusUnauthorized
      ∧ (AuthorizeProduct a q claims req next).resp.Err = some ErrInvalidID)
    ∧ (∀ q, (AuthorizeHome a q claims req next).calls = []
      ∧ (AuthorizeHome a q claims req next).resp.HTTPStatus = StatusUnauthorized
      ∧ (AuthorizeHome a q claims req next).resp.Err = some ErrInvalidID) := by
  refine ⟨?_, ?_, ?_⟩
  · intro q
    unfold AuthorizeUser
    rw [hp]
    simp [he, NewResponse]
  · intro q
    unfold AuthorizeProduct
    rw [hp]
    simp [he, NewResponse]
  · intro q
    unfold AuthorizeHome
    rw [hp]
    simp [he, NewResponse]

theorem C11_bad_id_rejected_witness :
    (∀ q, (AuthorizeUser spec.auth q sample.userClaims sample.badID sample.next).calls = []
      ∧ (AuthorizeUser spec.auth q sample.userClaims sample.badID
          sample.next).resp.HTTPStatus = StatusUnauthorized
      ∧ (AuthorizeUser spec.auth q sample.userClaims sample.badID sample.next).resp.Err
          = some ErrInvalidID)
    ∧ (∀ q, (AuthorizeProduct spec.auth q sample.userClaims sample.badID sample.next).calls
          = []
      ∧ (AuthorizeProduct spec.auth q sample.userClaims sample.badID
          sample.next).resp.HTTPStatus = StatusUnauthorized
      ∧ (AuthorizeProduct spec.auth q sample.userClaims sample.badID sample.next).resp.Err
          = some ErrInvalidID)
    ∧ (∀ q, (AuthorizeHome spec.auth q sample.userClaims sample.badID sample.next).calls = []
      ∧ (AuthorizeHome spec.auth q sample.userClaims sample.badID
          sample.next).resp.HTTPStatus = StatusUnauthorized
      ∧ (AuthorizeHome spec.auth q sample.userClaims sample.badID sample.next).resp.Err
          = some ErrInvalidID) :=
  C11_bad_id_rejected spec.auth sample.userClaims sample.badID sample.next
    ⟨ascii "userID", ascii "not-a-uuid"⟩ (.invalidLength 10) rfl (by decide)

/-- C12.  For `AuthorizeUser`, `AuthorizeProduct` and `AuthorizeHome`: when the
single path parameter parses as a UUID and `QueryByID` reports `ErrNotFound`,
the response carries HTTP 401 (not 404), `QueryByID` is the only call made, and
neither the rule engine nor `next` is called. -/
theorem C12_not_found_is_unauthorized (a : Auth) (claims : Claims) (req : Request)
    (next : Request → Response) (p : PathParam) (id : UUID)
    (hp : req.PathParams = [p]) (hparse : uuid.Parse p.Value = .ok id) :
    (∀ q err, q id = .error err → err.notFound = true →
      (AuthorizeUser a q claims req next).resp.HTTPStatus = 401
      ∧ (AuthorizeUser a q claims req next).resp.HTTPStatus ≠ 404
      ∧ (AuthorizeUser a q claims req next).calls = [.QueryByID id]
      ∧ MidCall.rules (AuthorizeUser a q claims req next).calls = []
      ∧ MidCall.nextReqs (AuthorizeUser a q claims req next).calls = [])
    ∧ (∀ q err, q id = .error err → err.notFound = true →
      (AuthorizeProduct a q claims req next).resp.HTTPStatus = 401
      ∧ (AuthorizeProduct a q claims req next).resp.HTTPStatus ≠ 404
      ∧ (AuthorizeProduct a q claims req next).calls = [.QueryByID id]
      ∧ MidCall.rules (AuthorizeProduct a q claims req next).calls = []
      ∧ MidCall.nextReqs (AuthorizeProduct a q claims req next).calls = [])
    ∧ (∀ q err, q id = .error err → err.notFound = true →
      (AuthorizeHome a q claims req next).resp.HTTPStatus = 401
      ∧ (AuthorizeHome a q claims req next).resp.HTTPStatus ≠ 404
      ∧ (AuthorizeHome a q claims req next).calls = [.QueryByID id]
      ∧ MidCall.rules (AuthorizeHome a q claims req next).calls = []
      ∧ MidCall.nextReqs (AuthorizeHome a q claims req next).calls = []) := by
  refine ⟨?_, ?_, ?_⟩
  · intro q err hq hnf
    unfold AuthorizeUser
    rw [hp]
    simp [hparse, hq, hnf, NewResponse, StatusUnauthorized, MidCall.rules, MidCall.nextReqs]
  · intro q err hq hnf
    unfold AuthorizeProduct
    rw [hp]
    simp [hparse, hq, hnf, NewResponse, StatusUnauthorized, MidCall.rules, MidCall.nextReqs]
  · intro q err hq hnf
    unfold AuthorizeHome
    rw [hp]
    simp [hparse, hq, hnf, NewResponse, StatusUnauthorized, MidCall.rules, MidCall.nextReqs]

theorem C12_not_found_is_unauthorized_witness :
    ((AuthorizeUser spec.auth sample.missing sample.userClaims sample.updateUser1
        sample.next).resp.HTTPStatus = 401
      ∧ (AuthorizeUser spec.auth sample.missing sample.userClaims sample.updateUser1
        sample.next).resp.HTTPStatus ≠ 404
      ∧ (AuthorizeUser spec.auth sample.missing sample.userClaims sample.updateUser1
        sample.next).calls = [.QueryByID sample.U1]
      ∧ MidCall.rules (AuthorizeUser spec.auth sample.missing sample.userClaims
        sample.updateUser1 sample.next).calls = []
      ∧ MidCall.nextReqs (AuthorizeUser spec.auth sample.missing sample.userClaims
        sample.updateUser1 sample.next).calls = [])
    ∧ ((AuthorizeProduct spec.auth sample.missing sample.userClaims sample.updateUser1
        sample.next).resp.HTTPStatus = 401
      ∧ (AuthorizeProduct spec.auth sample.missing sample.userClaims sample.updateUser1
        sample.next).resp.HTTPStatus ≠ 404
      ∧ (AuthorizeProduct spec.auth sample.missing sample.userClaims sample.updateUser1
        sample.next).calls = [.QueryByID sample.U1]
      ∧ MidCall.rules (AuthorizeProduct spec.auth sample.missing sample.userClaims
        sample.updateUser1 sample.next).calls = []
      ∧ MidCall.nextReqs (AuthorizeProduct spec.auth sample.missing sample.userClaims
        sample.updateUser1 sample.next).calls = [])
    ∧ ((AuthorizeHome spec.auth sample.missing sample.userClaims sample.updateUser1
        sample.next).resp.HTTPStatus = 401
      ∧ (AuthorizeHome spec.auth sample.missing sample.userClaims sample.updateUser1
        sample.next).resp.HTTPStatus ≠ 404
      ∧ (AuthorizeHome spec.auth sample.missing sample.userClaims sample.updateUser1
        sample.next).calls = [.QueryByID sample.U1]
      ∧ MidCall.rules (AuthorizeHome spec.auth sample.missing sample.userClaims
        sample.updateUser1 sample.next).calls = []
      ∧ MidCall.nextReqs (AuthorizeHome spec.auth sample.missing sample.userClaims
        sample.updateUser1 sample.next).calls = []) :=
  ⟨(C12_not_found_is_unauthorized spec.auth sample.userClaims sample.updateUser1 sample.next
      _ sample.U1 rfl (by decide)).1 sample.missing _ rfl rfl,
    (C12_not_found_is_unauthorized spec.auth sample.userClaims sample.updateUser1 sample.next
      _ sample.U1 rfl (by decide)).2.1 sample.missing _ rfl rfl,
    (C12_not_found_is_unauthorized spec.auth sample.userClaims sample.updateUser1 sample.next
      _ sample.U1 rfl (by decide)).2.2 sample.missing _ rfl rfl⟩

/-- A backend failure of `QueryByID` is answered with 401 by `AuthorizeUser`
and `AuthorizeHome` and with 500 by `AuthorizeProduct`, whatever the
request. -/
theorem backend_failure_status (a : Auth) (claims : Claims) (req : Request)
    (next : Request → Response) (p : PathParam) (id : UUID)
    (hp : req.PathParams = [p]) (hparse : uuid.Parse p.Value = .ok id) :
    (∀ q err, q id = .error err → err.notFound = false →
      (AuthorizeUser a q claims req next).resp.HTTPStatus = 401)
    ∧ (∀ q err, q id = .error err → err.notFound = false →
      (AuthorizeProduct a q claims req next).resp.HTTPStatus = 500)
    ∧ (∀ q err, q id = .error err → err.notFound = false →
      (AuthorizeHome a q claims req next).resp.HTTPStatus = 401) := by
  refine ⟨?_, ?_, ?_⟩
  · intro q err hq hnf
    unfold AuthorizeUser
    rw [hp]
    simp [hparse, hq, hnf, NewResponsef, StatusUnauthorized]
  · intro q err hq hnf
    unfold AuthorizeProduct
    rw [hp]
    simp [hparse, hq, hnf, NewResponsef, StatusInternalServerError]
  · intro q err hq hnf
    unfold AuthorizeHome
    rw [hp]
    simp [hparse, hq, hnf, NewResponsef, StatusUnauthorized]

/-- C13, on the code.  The path parameter parses and the store fails with an
error that is not `ErrNotFound`.  `AuthorizeProduct` answers with HTTP 500, as
the claim says; `AuthorizeUser` and `AuthorizeHome` answer with HTTP 401, the
status they also give for a missing record.  `next` is not called by any of
them. -/
theorem C13_backend_failure_is_401_for_user_and_home :
    uuid.Parse (ascii "aaaaaaaa-aaaa-aaaa-aaaa-aaaaaaaaaaaa") = .ok sample.U1
    ∧ (sample.down sample.U1 : Except QueryError User) = .error ⟨false, ascii "connection refused"⟩
    ∧ (AuthorizeProduct spec.auth sample.down sample.userClaims sample.updateUser1
        sample.next).resp.HTTPStatus = 500
    ∧ (AuthorizeUser spec.auth sample.down sample.userClaims sample.updateUser1
        sample.next).resp.HTTPStatus = 401
    ∧ (AuthorizeHome spec.auth sample.down sample.userClaims sample.updateUser1
        sample.next).resp.HTTPStatus = 401
    ∧ (AuthorizeUser spec.auth sample.missing sample.userClaims sample.updateUser1
        sample.next).resp.HTTPStatus = 401
    ∧ (AuthorizeHome spec.auth sample.missing sample.userClaims sample.updateUser1
        sample.next).resp.HTTPStatus = 401
    ∧ MidCall.nextReqs (AuthorizeUser spec.auth sample.down sample.userClaims
        sample.updateUser1 sample.next).calls = []
    ∧ MidCall.nextReqs (AuthorizeProduct spec.auth sample.down sample.userClaims
        sample.updateUser1 sample.next).calls = []
    ∧ MidCall.nextReqs (AuthorizeHome spec.auth sample.down sample.userClaims
        sample.updateUser1 sample.next).calls = [] := by
  decide

end bizmid

/-! ## `AuthHandler`: the errors it returns -/

namespace appmid

theorem processJWT_failure (d : Deps) (token : Str) (h : (processJWT d token).err ≠ none) :
    FailureShape d (processJWT d token) := by
  unfold processJWT at h ⊢
  unfold FailureShape
  cases hA : d.Authenticate token with
  | error e => simp [errs.New]
  | ok claims =>
    by_cases hs : claims.Subject = []
    · simp [hs, errs.Newf]
    · cases hp : uuid.Parse claims.Subject with
      | error e => simp [hs, hp, errs.New]
      | ok u => simp [hA, hs, hp] at h

theorem processBasic_failure (d : Deps) (basic : Str) (h : (processBasic d basic).err ≠ none) :
    FailureShape d (processBasic d basic) := by
  unfold FailureShape
  rcases processBasic_cases d basic with
    ⟨_, hr⟩ | ⟨email, pass, _, ⟨e, _, hr⟩ | ⟨addr, _, ⟨e, hU, hr⟩ | ⟨usr, _, hr⟩⟩⟩
  · rw [hr]; simp [errs.Newf]
  · rw [hr]; simp [errs.New]
  · rw [hr]
    refine ⟨⟨_, rfl, rfl⟩, rfl, rfl, ?_⟩
    intro addr2 pass2 hmem
    simp only [List.mem_singleton, Call.userAuthenticate.injEq] at hmem
    obtain ⟨rfl, rfl⟩ := hmem
    exact ⟨e, hU, rfl⟩
  · rw [hr] at h; simp at h

/-- Every failure returned by `AuthHandler` carries the error code
`Unauthenticated`, an empty UID and nil Claims, whatever its cause, and a
failure of the credential verifier carries the text of the verifier's error. -/
theorem AuthHandler_failure_shape (d : Deps) (ap : AuthParams)
    (h : (AuthHandler d ap).err ≠ none) :
    FailureShape d (AuthHandler d ap) := by
  unfold AuthHandler at h ⊢
  split
  · rename_i p0 p1 heq
    rw [heq] at h
    simp only at h
    by_cases h1 : p0 = ascii "Bearer"
    · rw [if_pos h1] at h ⊢
      exact processJWT_failure d _ h
    · rw [if_neg h1] at h ⊢
      by_cases h2 : p0 = ascii "Basic"
      · rw [if_pos h2] at h ⊢
        exact processBasic_failure d _ h
      · rw [if_neg h2]
        simp [FailureShape, errs.Newf]
  · simp [FailureShape, errs.Newf]

theorem AuthHandler_failure_shape_sample :
    FailureShape sample.depsTwoAddresses
        (AuthHandler sample.depsTwoAddresses sample.basicWrongPass)
    ∧ FailureShape sample.depsTwoAddresses
        (AuthHandler sample.depsTwoAddresses sample.basicNoUser)
    ∧ (AuthHandler sample.depsTwoAddresses sample.basicWrongPass).err
      = (AuthHandler sample.depsTwoAddresses sample.basicNoUser).err :=
  ⟨AuthHandler_failure_shape sample.depsTwoAddresses sample.basicWrongPass (by decide),
    AuthHandler_failure_shape sample.depsTwoAddresses sample.basicNoUser (by decide),
    by decide⟩

/-- The message of every failure of `AuthHandler`, cause by cause: a literal
of its own for a wrong number of parts, for an unknown scheme, for an empty
subject and for an undecodable Basic value; the text of the error of
`uuid.Parse` after `parsing subject: ` for a subject that is not a UUID; and
the text of the collaborator's error for a failure of the token verifier, of
the address parser and of the credential verifier. -/
theorem AuthHandler_failure_message (d : Deps) (ap : AuthParams) :
    ((strings.Split ap.Authorization 32).length ≠ 2 →
      (AuthHandler d ap).err
        = some ⟨.Unauthenticated, .lit "invalid authorization value"⟩)
    ∧ (∀ p0 p1, strings.Split ap.Authorization 32 = [p0, p1] → p0 ≠ ascii "Bearer" →
        p0 ≠ ascii "Basic" →
        (AuthHandler d ap).err = some ⟨.Unauthenticated, .lit "unauthenticated"⟩)
    ∧ (∀ p1, strings.Split ap.Authorization 32 = [ascii "Bearer", p1] →
        (∀ t, d.Authenticate ap.Authorization = .error t →
          (AuthHandler d ap).err = some ⟨.Unauthenticated, .ofCollaborator t⟩)
        ∧ (∀ c, d.Authenticate ap.Authorization = .ok c → c.Subject = [] →
          (AuthHandler d ap).err
            = some ⟨.Unauthenticated,
                .lit "authorize: you are not authorized for that action, no claims"⟩)
        ∧ (∀ c e, d.Authenticate ap.Authorization = .ok c → c.Subject ≠ [] →
          uuid.Parse c.Subject = .error e →
          (AuthHandler d ap).err
            = some ⟨.Unauthenticated, .prefixed "parsing subject: " (.ofUUID e)⟩))
    ∧ (∀ p1, strings.Split ap.Authorization 32 = [ascii "Basic", p1] →
        ((∀ email pass, parseBasicAuth ap.Authorization ≠ (email, pass, true)) →
          (AuthHandler d ap).err = some ⟨.Unauthenticated, .lit "invalid Basic auth"⟩)
        ∧ (∀ email pass t, parseBasicAuth ap.Authorization = (email, pass, true) →
          d.ParseAddress email = .error t →
          (AuthHandler d ap).err = some ⟨.Unauthenticated, .ofCollaborator t⟩)
        ∧ (∀ email pass addr t, parseBasicAuth ap.Authorization = (email, pass, true) →
          d.ParseAddress email = .ok addr → d.userAuthenticate addr pass = .error t →
          (AuthHandler d ap).err = some ⟨.Unauthenticated, .ofCollaborator t⟩)) := by
  refine ⟨?_, ?_, ?_, ?_⟩
  · intro h
    unfold AuthHandler
    split
    · rename_i p0 p1 heq
      rw [heq] at h
      simp at h
    · rfl
  · intro p0 p1 h h1 h2
    unfold AuthHandler
    rw [h]
    simp [h1, h2, errs.Newf, ErrCode.unauthenticatedString]
  · intro p1 h
    rw [AuthHandler_bearer d ap p1 h]
    unfold processJWT
    refine ⟨?_, ?_, ?_⟩
    · intro t ht
      rw [ht]
      rfl
    · intro c hc hs
      rw [hc]
      simp [hs, errs.Newf]
    · intro c e hc hs he
      rw [hc]
      simp [hs, he, errs.New]
  · intro p1 h
    rw [AuthHandler_basic d ap p1 h]
    unfold processBasic
    refine ⟨?_, ?_, ?_⟩
    · intro hno
      rcases hP : parseBasicAuth ap.Authorization with ⟨email, pass, f⟩
      cases f with
      | false => simp [errs.Newf]
      | true => exact absurd hP (hno email pass)
    · intro email pass t hP hA
      rw [hP]
      simp [hA, errs.New]
    · intro email pass addr t hP hA hU
      rw [hP]
      simp [hA, hU, errs.New]

/-- C14, on the code.  The failures of `AuthHandler` all carry the code
`Unauthenticated`, but not one generic message: a bad signature and an expired
token carry the two texts of the token verifier, and the empty value, an
unknown scheme, an empty subject, a subject that is not a UUID, an undecodable
Basic value and a malformed email each carry a message of their own.  With a
credential verifier that reports an unknown user and a wrong password
differently the two errors differ; they are equal only with a verifier that
reports both alike. -/
theorem C14_failure_message_depends_on_cause :
    (AuthHandler sample.depsCauses ⟨ascii "Bearer goodA"⟩).err
      = some ⟨.Unauthenticated, .ofCollaborator (ascii "crypto/rsa: verification error")⟩
    ∧ (AuthHandler sample.depsCauses ⟨ascii "Bearer expired"⟩).err
      = some ⟨.Unauthenticated, .ofCollaborator (ascii "token is expired")⟩
    ∧ (AuthHandler sample.depsCauses ⟨[]⟩).err
      = some ⟨.Unauthenticated, .lit "invalid authorization value"⟩
    ∧ (AuthHandler sample.depsCauses ⟨ascii "Digest abc"⟩).err
      = some ⟨.Unauthenticated, .lit "unauthenticated"⟩
    ∧ (AuthHandler sample.depsCauses ⟨ascii "Bearer nosub"⟩).err
      = some ⟨.Unauthenticated,
          .lit "authorize: you are not authorized for that action, no claims"⟩
    ∧ (AuthHandler sample.depsCauses ⟨ascii "Bearer badsub"⟩).err
      = some ⟨.Unauthenticated, .prefixed "parsing subject: " (.ofUUID (.invalidLength 10))⟩
    ∧ (AuthHandler sample.depsCauses ⟨ascii "Basic ????"⟩).err
      = some ⟨.Unauthenticated, .lit "invalid Basic auth"⟩
    ∧ (AuthHandler sample.depsCauses sample.basicBadEmail).err
      = some ⟨.Unauthenticated, .ofCollaborator (ascii "mail: missing '@' or angle-addr")⟩
    ∧ (AuthHandler sample.depsCauses sample.basicWrongPass).err
      = some ⟨.Unauthenticated,
          .ofCollaborator (ascii "comparehashandpassword: authentication failed")⟩
    ∧ (AuthHandler sample.depsCauses sample.basicNoUser).err
      = some ⟨.Unauthenticated, .ofCollaborator (ascii "query: user not found")⟩
    ∧ (AuthHandler sample.depsCauses sample.basicWrongPass).err
      ≠ (AuthHandler sample.depsCauses sample.basicNoUser).err
    ∧ (AuthHandler sample.depsCauses ⟨ascii "Bearer goodA"⟩).err
      ≠ (AuthHandler sample.depsCauses ⟨ascii "Bearer expired"⟩).err
    ∧ (AuthHandler sample.depsCauses ⟨[]⟩).err
      ≠ (AuthHandler sample.depsCauses ⟨ascii "Digest abc"⟩).err
    ∧ (AuthHandler sample.depsTwoAddresses sample.basicWrongPass).err
      = (AuthHandler sample.depsTwoAddresses sample.basicNoUser).err := by
  decide

end appmid

/-! ## The response to a denial -/

namespace bizmid

/-- C15, on the code.  Two callers are denied by the rule engine on the same
request under the same rule; one holds the role `USER`, the other the roles
`USER` and `GUEST`.  Both responses carry HTTP 401, and they differ: the
message handed to `errs.NewResponsef` names the roles of the caller, the rule
and the reason given by the rule engine.  The same holds for one caller denied
under two rules. -/
theorem C15_denial_response_names_roles_and_rule :
    spec.Decide sample.userClaims .RuleAdminOrSubject sample.U2 = false
    ∧ spec.Decide sample.guestClaims .RuleAdminOrSubject sample.U2 = false
    ∧ (AuthorizeUser spec.auth sample.QueryByID sample.userClaims sample.updateUser2
        sample.next).resp
      = NewResponsef StatusUnauthorized
          (.notAuthorized [spec.USER] .RuleAdminOrSubject (.ofCollaborator (ascii "rule denied")))
    ∧ (AuthorizeUser spec.auth sample.QueryByID sample.guestClaims sample.updateUser2
        sample.next).resp
      = NewResponsef StatusUnauthorized
          (.notAuthorized [spec.USER, ascii "GUEST"] .RuleAdminOrSubject
            (.ofCollaborator (ascii "rule denied")))
    ∧ (AuthorizeUser spec.auth sample.QueryByID sample.userClaims sample.updateUser2
        sample.next).resp
      ≠ (AuthorizeUser spec.auth sample.QueryByID sample.guestClaims sample.updateUser2
        sample.next).resp
    ∧ (Authorize sample.denyAll sample.userClaims ⟨routes.UserQuery, [], []⟩ sample.next).resp
      = NewResponsef StatusUnauthorized
          (.notAuthorized [spec.USER] .RuleAdminOnly
            (.ofCollaborator (ascii "rule_admin_only failed")))
    ∧ (Authorize sample.denyAll sample.userClaims ⟨routes.HomeQuery, [], []⟩ sample.next).resp
      = NewResponsef StatusUnauthorized
          (.notAuthorized [spec.USER] .RuleAny (.ofCollaborator (ascii "rule failed")))
    ∧ (Authorize sample.denyAll sample.userClaims ⟨routes.UserQuery, [], []⟩ sample.next).resp
      ≠ (Authorize sample.denyAll sample.userClaims ⟨routes.HomeQuery, [], []⟩
          sample.next).resp := by
  decide

end bizmid

namespace v1mid

/-- C16, on the code.  `AuthorizeAdminOnly` and `AuthorizeUser` of
`business/web/v1/mid` build the response to a denial of the rule engine with
`http.StatusBadRequest` (400), and `AuthorizeUser` builds the response to a
user that is not found with `http.StatusNoContent` (204); `next` is not called.
`AuthorizeUser` of `business/api/mid` answers both with 401. -/
theorem C16_v1_rejections_are_not_401 :
    spec.Decide sample.userClaims .RuleAdminOnly uuid.Nil = false
    ∧ (AuthorizeAdminOnly spec.auth sample.userClaims sample.listUsers sample.next).resp.HTTPStatus
      = 400
    ∧ MidCall.nextReqs (AuthorizeAdminOnly spec.auth sample.userClaims sample.listUsers
        sample.next).calls = []
    ∧ (AuthorizeUser spec.auth sample.QueryByID sample.userClaims sample.updateUser2
        sample.next).resp.HTTPStatus = 400
    ∧ MidCall.nextReqs (AuthorizeUser spec.auth sample.QueryByID sample.userClaims
        sample.updateUser2 sample.next).calls = []
    ∧ (sample.missing sample.U1 : Except QueryError User) = .error ⟨true, ascii "not found"⟩
    ∧ (AuthorizeUser spec.auth sample.missing sample.userClaims sample.updateUser1
        sample.next).resp.HTTPStatus = 204
    ∧ MidCall.nextReqs (AuthorizeUser spec.auth sample.missing sample.userClaims
        sample.updateUser1 sample.next).calls = []
    ∧ (bizmid.AuthorizeUser spec.auth sample.QueryByID sample.userClaims sample.updateUser2
        sample.next).resp.HTTPStatus = 401
    ∧ (bizmid.AuthorizeUser spec.auth sample.missing sample.userClaims sample.updateUser1
        sample.next).resp.HTTPStatus = 401 := by
  decide

/-- The statuses of the rejections of the version-1 middleware, for every
request: 400 on a denial by the rule engine. -/
theorem denial_status (a : Auth) (claims : Claims) (req : Request)
    (next : Request → Response) (calls : List MidCall) (userID : UUID) (err : Str)
    (h : a.Authorize claims userID .RuleAdminOrSubject = some err) :
    (authorizeAndForward a claims calls userID req next).resp.HTTPStatus = 400 := by
  unfold authorizeAndForward
  rw [h]
  rfl

end v1mid

/-! ## The rule selected from the tags -/

namespace bizmid

/-- One step of the loop of `Authorize`. -/
theorem ruleOfTags_append (tags : List Str) (tag : Str) :
    ruleOfTags (tags ++ [tag]) =
      if tag = ascii "as_any_role" then .RuleAny
      else if tag = ascii "as_user_role" then .RuleUserOnly
      else ruleOfTags tags := by
  simp [ruleOfTags, List.foldl_append]

theorem ruleOfLastRoleTag_append (tags : List Str) (tag : Str) :
    spec.ruleOfLastRoleTag (tags ++ [tag]) =
      if tag = ascii "as_any_role" then .RuleAny
      else if tag = ascii "as_user_role" then .RuleUserOnly
      else spec.ruleOfLastRoleTag tags := by
  unfold spec.ruleOfLastRoleTag
  rw [List.filter_append]
  by_cases h1 : tag = ascii "as_any_role"
  · have hp : spec.isRoleTag tag = true := by simp [spec.isRoleTag, h1]
    rw [List.filter_cons_of_pos hp, List.filter_nil, List.getLast?_concat, if_pos h1]
    simp only [h1, if_true]
  · by_cases h2 : tag = ascii "as_user_role"
    · have hp : spec.isRoleTag tag = true := by simp [spec.isRoleTag, h2]
      rw [List.filter_cons_of_pos hp, List.filter_nil, List.getLast?_concat, if_neg h1,
        if_pos h2]
      simp only [h1, if_false]
    · have hp : ¬ spec.isRoleTag tag = true := by simp [spec.isRoleTag, h1, h2]
      rw [List.filter_cons_of_neg hp, List.filter_nil, List.append_nil, if_neg h1, if_neg h2]

/-- The loop of `Authorize` selects the rule of the last role tag. -/
theorem ruleOfTags_eq (tags : List Str) : ruleOfTags tags = spec.ruleOfLastRoleTag tags := by
  induction tags using List.reverseRecOn with
  | nil => rfl
  | append_singleton tags tag ih =>
    rw [ruleOfTags_append, ruleOfLastRoleTag_append, ih]

theorem authorizeAndForward_rules (a : Auth) (claims : Claims) (calls : List MidCall)
    (userID : UUID) (rule : Rule) (req : Request) (next : Request → Response) :
    MidCall.rules (authorizeAndForward a claims calls userID rule req next).calls
      = MidCall.rules calls ++ [rule] := by
  unfold authorizeAndForward
  cases hv : a.Authorize claims userID rule <;>
    simp [MidCall.rules, List.filterMap_append, List.filterMap_cons]

theorem rules_queryCalls {α : Type} (res : Option (UUID × α)) :
    MidCall.rules (queryCalls res) = [] := by
  rcases res with _ | ⟨id, x⟩ <;> rfl

/-- C17.  The rule that `Authorize` hands to the rule engine is computed from
the tags of the route alone: it is `RuleAdminOnly` when no tag is
`as_any_role` or `as_user_role`, and otherwise the rule of the last such tag;
removing the `as_admin_role` tags changes nothing.  For the tags declared in
`routes.go` it is `RuleUserOnly` for `HomeCreate`, `ProductCreate` and
`TranCreate`, `RuleAny` for `HomeQuery` and `ProductQuery`, and
`RuleAdminOnly` for `UserCreate`, `UserQuery` and `VProductQuery`. -/
theorem C17_rule_of_Authorize :
    (∀ (a : Auth) (claims : Claims) (req : Request) (next : Request → Response),
      MidCall.rules (Authorize a claims req next).calls = [ruleOfTags req.Tags])
    ∧ (∀ tags, ruleOfTags tags = spec.ruleOfLastRoleTag tags)
    ∧ (∀ tags, ruleOfTags (tags.filter fun tag => tag ≠ ascii "as_admin_role") = ruleOfTags tags)
    ∧ ruleOfTags routes.HomeCreate = .RuleUserOnly
    ∧ ruleOfTags routes.ProductCreate = .RuleUserOnly
    ∧ ruleOfTags routes.TranCreate = .RuleUserOnly
    ∧ ruleOfTags routes.HomeQuery = .RuleAny
    ∧ ruleOfTags routes.ProductQuery = .RuleAny
    ∧ ruleOfTags routes.UserCreate = .RuleAdminOnly
    ∧ ruleOfTags routes.UserQuery = .RuleAdminOnly
    ∧ ruleOfTags routes.VProductQuery = .RuleAdminOnly := by
  refine ⟨?_, ruleOfTags_eq, ?_, by decide, by decide, by decide, by decide, by decide,
    by decide, by decide, by decide⟩
  · intro a claims req next
    unfold Authorize
    rw [authorizeAndForward_rules]
    rfl
  · intro tags
    rw [ruleOfTags_eq, ruleOfTags_eq]
    unfold spec.ruleOfLastRoleTag
    rw [List.filter_filter]
    have hf : (tags.filter fun a =>
        spec.isRoleTag a && decide (a ≠ ascii "as_admin_role")) = tags.filter spec.isRoleTag := by
      apply List.filter_congr
      intro x _
      by_cases hx : spec.isRoleTag x = true
      · have hne : x ≠ ascii "as_admin_role" := by
          intro hc
          rw [hc] at hx
          exact absurd hx (by decide)
        simp [hx, hne]
      · simp [hx]
    rw [hf]

/-- The loop of `AuthorizeUser` selects `RuleAdminOnly` exactly when the tags
contain `as_admin_role`. -/
theorem userRuleOfTags_eq (tags : List Str) : userRuleOfTags tags = spec.userRule tags := by
  induction tags with
  | nil => rfl
  | cons tag rest ih =>
    unfold userRuleOfTags spec.userRule
    by_cases h : tag = ascii "as_admin_role"
    · simp [h]
    · rw [if_neg h, ih]
      unfold spec.userRule
      have h2 : ¬ ascii "as_admin_role" = tag := fun hc => h hc.symm
      simp [h2]

/-- C18.  The rule that `AuthorizeUser` hands to the rule engine is
`RuleAdminOnly` if the tags of the route contain `as_admin_role` and
`RuleAdminOrSubject` otherwise: `RuleAdminOnly` for `UserUpdateRole`, and
`RuleAdminOrSubject` for `UserUpdate`, `UserDelete` and `UserQueryByID`. -/
theorem C18_rule_of_AuthorizeUser :
    (∀ tags, userRuleOfTags tags = spec.userRule tags)
    ∧ (∀ (a : Auth) (q : UUID → Except QueryError User) (claims : Claims) (req : Request)
        (next : Request → Response) (res : Option (UUID × User)), Resolved q req res →
        MidCall.rules (AuthorizeUser a q claims req next).calls = [userRuleOfTags req.Tags])
    ∧ userRuleOfTags routes.UserUpdateRole = .RuleAdminOnly
    ∧ userRuleOfTags routes.UserUpdate = .RuleAdminOrSubject
    ∧ userRuleOfTags routes.UserDelete = .RuleAdminOrSubject
    ∧ userRuleOfTags routes.UserQueryByID = .RuleAdminOrSubject := by
  refine ⟨userRuleOfTags_eq, ?_, by decide, by decide, by decide, by decide⟩
  intro a q claims req next res h
  rw [AuthorizeUser_resolved a q claims req next res h, authorizeAndForward_rules,
    rules_queryCalls]
  rfl

/-- On `PUT /v1/role/:userID` the caller is the user named in the path and
holds only the role `USER`: the rule is `RuleAdminOnly`, the rule engine of the
specification denies, and `next` is not called. -/
theorem C18_rule_of_AuthorizeUser_witness :
    uuid.Parse sample.userClaims.Subject = .ok sample.U1
    ∧ MidCall.rules (AuthorizeUser spec.auth sample.QueryByID sample.userClaims
        sample.updateRole1 sample.next).calls = [.RuleAdminOnly]
    ∧ MidCall.owners (AuthorizeUser spec.auth sample.QueryByID sample.userClaims
        sample.updateRole1 sample.next).calls = [sample.U1]
    ∧ (AuthorizeUser spec.auth sample.QueryByID sample.userClaims sample.updateRole1
        sample.next).resp.HTTPStatus = 401
    ∧ MidCall.nextReqs (AuthorizeUser spec.auth sample.QueryByID sample.userClaims
        sample.updateRole1 sample.next).calls = [] :=
  ⟨by decide,
    (C18_rule_of_AuthorizeUser.2.1 spec.auth sample.QueryByID sample.userClaims
      sample.updateRole1 sample.next (some (sample.U1, sample.user1))
      (Or.inr ⟨_, _, _, rfl, by decide, by decide, rfl⟩)).trans (by decide),
    by decide, by decide, by decide⟩

end bizmid

/-! ## The request context of `business/web/v1/mid` -/

namespace v1mid

theorem GetUser_setUser (req : Request) (usr : User) :
    GetUser (setUser req usr).ctx = (usr, none) := by
  simp [GetUser, setUser, Request.WithContext, Context.WithValue, Context.Value]

theorem GetUserID_setUserID (req : Request) (id : UUID) :
    GetUserID (setUserID req id).ctx = (id, none) := by
  simp [GetUserID, setUserID, Request.WithContext, Context.WithValue, Context.Value]

theorem nextReqs_authorizeAndForward (a : Auth) (claims : Claims) (calls : List MidCall)
    (userID : UUID) (req : Request) (next : Request → Response)
    (h : MidCall.nextReqs calls = []) :
    ∀ r ∈ MidCall.nextReqs (authorizeAndForward a claims calls userID req next).calls,
      r = req := by
  intro r hr
  unfold authorizeAndForward at hr
  cases hv : a.Authorize claims userID .RuleAdminOrSubject with
  | none =>
    rw [hv] at hr
    simp only [MidCall.nextReqs, List.filterMap_append] at h hr
    rw [h] at hr
    simpa [List.filterMap_cons] using hr
  | some err =>
    rw [hv] at hr
    simp only [MidCall.nextReqs, List.filterMap_append] at h hr
    rw [h] at hr
    simp [List.filterMap_cons] at hr

/-- C19.  Whenever `AuthorizeUser` of `business/web/v1/mid` forwards a request
that had exactly one path parameter, `GetUser` on the context of the request
given to `next` returns, without error, the user that `QueryByID` returned.
`GetUser` after `setUser` and `GetUserID` after `setUserID` return what was
stored; the two keys are distinct, so that storing under one does not change
what the other getter returns; and a getter returns an error on a context that
holds nothing under its key. -/
theorem C19_resolved_user_is_attached :
    (∀ (a : Auth) (q : UUID → Except QueryError User) (claims : Claims) (req : Request)
        (next : Request → Response) (p : PathParam), req.PathParams = [p] →
        ∀ r ∈ MidCall.nextReqs (AuthorizeUser a q claims req next).calls,
          ∃ id usr, uuid.Parse p.Value = .ok id ∧ q id = .ok usr
            ∧ GetUser r.ctx = (usr, none))
    ∧ (∀ req usr, GetUser (setUser req usr).ctx = (usr, none))
    ∧ (∀ req id, GetUserID (setUserID req id).ctx = (id, none))
    ∧ userIDKey ≠ userKey
    ∧ (∀ req usr, GetUserID (setUser req usr).ctx = GetUserID req.ctx)
    ∧ (∀ req id, GetUser (setUserID req id).ctx = GetUser req.ctx)
    ∧ (∀ ctx : Context, ctx.Value userKey = none →
        GetUser ctx = (zeroUser, some (.lit "user not found")))
    ∧ (∀ ctx : Context, ctx.Value userIDKey = none →
        GetUserID ctx = (uuid.Nil, some (.lit "user id not found"))) := by
  refine ⟨?_, GetUser_setUser, GetUserID_setUserID, by decide, ?_, ?_, ?_, ?_⟩
  · intro a q claims req next p hp r hr
    unfold AuthorizeUser at hr
    rw [hp] at hr
    simp only at hr
    cases hparse : uuid.Parse p.Value with
    | error e =>
      rw [hparse] at hr
      simp [MidCall.nextReqs] at hr
    | ok id =>
      rw [hparse] at hr
      simp only at hr
      cases hq : q id with
      | error err =>
        rw [hq] at hr
        simp only at hr
        split at hr <;> simp [MidCall.nextReqs] at hr
      | ok usr =>
        rw [hq] at hr
        simp only at hr
        have hreq := nextReqs_authorizeAndForward a claims [.QueryByID id] uuid.Nil
          (setUser req usr) next rfl r hr
        rw [hreq]
        exact ⟨id, usr, rfl, hq, GetUser_setUser req usr⟩
  · intro req usr
    have hne : userKey ≠ userIDKey := by decide
    simp [GetUserID, setUser, Request.WithContext, Context.WithValue, Context.Value, hne]
  · intro req id
    have hne : userIDKey ≠ userKey := by decide
    simp [GetUser, setUserID, Request.WithContext, Context.WithValue, Context.Value, hne]
  · intro ctx h
    simp [GetUser, h]
  · intro ctx h
    simp [GetUserID, h]

/-- An admin updates user `U1`: the request is forwarded and carries `user1`;
on the empty context both getters return their error. -/
theorem C19_resolved_user_is_attached_witness :
    (∀ r ∈ MidCall.nextReqs (AuthorizeUser spec.auth sample.QueryByID sample.adminClaims
          sample.updateUser1 sample.next).calls,
        ∃ id usr, uuid.Parse (ascii "aaaaaaaa-aaaa-aaaa-aaaa-aaaaaaaaaaaa") = .ok id
          ∧ sample.QueryByID id = .ok usr ∧ GetUser r.ctx = (usr, none))
    ∧ MidCall.nextReqs (AuthorizeUser spec.auth sample.QueryByID sample.adminClaims
        sample.updateUser1 sample.next).calls = [setUser sample.updateUser1 sample.user1]
    ∧ GetUser (setUser sample.updateUser1 sample.user1).ctx = (sample.user1, none)
    ∧ GetUser [] = (zeroUser, some (.lit "user not found"))
    ∧ GetUserID [] = (uuid.Nil, some (.lit "user id not found")) :=
  ⟨C19_resolved_user_is_attached.1 spec.auth sample.QueryByID sample.adminClaims
      sample.updateUser1 sample.next _ rfl,
    by decide, by decide,
    C19_resolved_user_is_attached.2.2.2.2.2.2.1 [] rfl,
    C19_resolved_user_is_attached.2.2.2.2.2.2.2 [] rfl⟩

end v1mid
